import Mathlib

/-!
Shallow embedding of the Taskcluster queue service
(src/services/queue/src/api.js) for checking the natural-language
specification against the code.

Timestamps are modelled as integer milliseconds since the epoch
(`new Date().getTime()`), so `new Date(0)` is `0`.  Each API handler
is translated to a pure function threading the relevant state
explicitly; `task.modify(mutator)` becomes a pure `Task -> Task`
mutator applied once (the sequential, conflict-free execution).
Queue puts and pulse publishes are collected in an event list.
-/

namespace TcQueue

/-- Milliseconds since epoch, as `Date.getTime()` returns. -/
abbrev Time := Int

/-- Maximum number runs allowed (api.js `MAX_RUNS_ALLOWED`). -/
def MAX_RUNS_ALLOWED : Nat := 50

/-- 15 minutes in milliseconds, the allowed clock drift. -/
def driftMs : Int := 15 * 60 * 1000

/-- 5 days in milliseconds, the deadline horizon. -/
def fiveDaysMs : Int := 5 * 24 * 60 * 60 * 1000

/-- One year in milliseconds.  The code computes the default `expires`
with `setFullYear(+1)`, a calendar year of 365 or 366 days; the model
uses 365 days, and no claim checked here depends on the exact length,
only on `deadline + oneYearMs >= deadline`. -/
def oneYearMs : Int := 365 * 24 * 60 * 60 * 1000

/-- `run.state` values. -/
inductive RunState
  | pending
  | running
  | completed
  | failed
  | exception
deriving DecidableEq, Repr

/-- A run state is terminal when it is not `pending` or `running`. -/
def RunState.isTerminal : RunState → Bool
  | .pending => false
  | .running => false
  | _ => true

/-- `run.reasonCreated` values. -/
inductive ReasonCreated
  | scheduled
  | retry
  | taskRetry
  | rerun
  | exceptionCr
deriving DecidableEq, Repr

/-- `run.reasonResolved` values, which also cover the `reason` body of
`reportException` requests. -/
inductive Reason
  | completed
  | failed
  | deadlineExceeded
  | canceled
  | superseded
  | claimExpired
  | workerShutdown
  | malformedPayload
  | resourceUnavailable
  | internalError
  | intermittentTask
deriving DecidableEq, Repr

/-- One run record of a task. -/
structure Run where
  state : RunState
  reasonCreated : ReasonCreated
  reasonResolved : Option Reason := none
  scheduled : Option Time := none
  started : Option Time := none
  resolved : Option Time := none
  takenUntil : Option Time := none
  workerGroup : Option String := none
  workerId : Option String := none
deriving DecidableEq, Repr

/-- A task definition as submitted to `createTask` / `defineTask`.
`taskGroupId = ""` models an absent (falsy) `taskGroupId`; `expires =
none` models an omitted `expires`.  `payload`, `metadata`, `tags` and
`extra` are opaque JSON blobs, modelled as strings compared only for
equality. -/
structure TaskDef where
  provisionerId : String
  workerType : String
  schedulerId : String
  taskGroupId : String := ""
  dependencies : List String := []
  requires : String := "all-completed"
  routes : List String := []
  priority : String := "lowest"
  retries : Nat := 5
  created : Time
  deadline : Time
  expires : Option Time := none
  scopes : List String := []
  payload : String := ""
  metadata : String := ""
  tags : String := ""
  extra : String := ""
deriving DecidableEq, Repr

/-- A stored Task row (the `Task` entity). -/
structure Task where
  taskId : String
  provisionerId : String
  workerType : String
  schedulerId : String
  taskGroupId : String
  dependencies : List String
  requires : String
  routes : List String
  priority : String
  retries : Nat
  retriesLeft : Nat
  created : Time
  deadline : Time
  expires : Time
  scopes : List String
  payload : String
  metadata : String
  tags : String
  extra : String
  runs : List Run
  takenUntil : Time
deriving DecidableEq, Repr

/-- Modelled from the spec: `task.definition()` from data.js (not in the
source tree) returns the definition fields of a stored task, used by
`createTask` for the idempotency comparison. -/
def Task.definition (t : Task) : TaskDef :=
  { provisionerId := t.provisionerId
    workerType := t.workerType
    schedulerId := t.schedulerId
    taskGroupId := t.taskGroupId
    dependencies := t.dependencies
    requires := t.requires
    routes := t.routes
    priority := t.priority
    retries := t.retries
    created := t.created
    deadline := t.deadline
    expires := some t.expires
    scopes := t.scopes
    payload := t.payload
    metadata := t.metadata
    tags := t.tags
    extra := t.extra }

/-- Render a run state the way the status view does. -/
def RunState.name : RunState → String
  | .pending => "pending"
  | .running => "running"
  | .completed => "completed"
  | .failed => "failed"
  | .exception => "exception"

/-- Modelled from the spec: the derived task state (`task.state()` from
data.js, not in the source tree): `unscheduled` if there are no runs,
otherwise the state of the last run. -/
def Task.state (t : Task) : String :=
  match t.runs[t.runs.length - 1]? with
  | none => "unscheduled"
  | some r => r.state.name

/-- Modelled from the spec: the task status view (`task.status()` from
data.js, not in the source tree). -/
structure Status where
  taskId : String
  provisionerId : String
  workerType : String
  schedulerId : String
  taskGroupId : String
  deadline : Time
  expires : Time
  retriesLeft : Nat
  state : String
  runs : List Run
deriving DecidableEq, Repr

/-- Modelled from the spec: build the status view of a task. -/
def Task.status (t : Task) : Status :=
  { taskId := t.taskId
    provisionerId := t.provisionerId
    workerType := t.workerType
    schedulerId := t.schedulerId
    taskGroupId := t.taskGroupId
    deadline := t.deadline
    expires := t.expires
    retriesLeft := t.retriesLeft
    state := t.state
    runs := t.runs }

/-- Queue messages and pulse exchange messages emitted by handlers. -/
inductive Event
  | deadlineMsg (taskId : String) (deadline : Time)
  | pendingMsg (taskId : String) (runId : Nat)
  | claimMsg (taskId : String) (runId : Nat) (takenUntil : Time)
  | resolvedMsg (taskId : String) (resolution : String)
  | taskDefined (taskId : String)
  | taskPending (taskId : String) (runId : Nat)
  | taskRunning (taskId : String) (runId : Nat)
  | taskCompleted (taskId : String) (runId : Nat)
  | taskFailed (taskId : String) (runId : Nat)
  | taskException (taskId : String) (runId : Nat)
deriving DecidableEq, Repr

/-- Errors reported through `res.reportError`. -/
inductive ApiError
  | inputError (msg : String)
  | resourceNotFound
  | requestConflict
deriving DecidableEq, Repr

/-- Result of an API handler: a reply value or a reported error. -/
inductive Outcome (α : Type)
  | ok (v : α)
  | err (e : ApiError)
deriving DecidableEq, Repr

/-- A fresh pending run, as pushed by retries, reruns and scheduling. -/
def pendingRun (rc : ReasonCreated) (now : Time) : Run :=
  { state := .pending, reasonCreated := rc, scheduled := some now }

/-! ### cancelTask -/

/-- The mutator body of `task.modify` inside `cancelTask`: resolve a
pending/running last run as exception/canceled, or append a canceled
exception run when the task has no runs; always clear `takenUntil`. -/
def cancelMutator (now : Time) (t : Task) : Task :=
  match t.runs[t.runs.length - 1]? with
  | some r =>
    if r.state = .pending ∨ r.state = .running then
      { t with
        runs := t.runs.set (t.runs.length - 1)
          { r with state := .exception, reasonResolved := some .canceled,
                   resolved := some now }
        takenUntil := 0 }
    else
      { t with takenUntil := 0 }
  | none =>
    { t with
      runs := [{ state := .exception, reasonCreated := .exceptionCr,
                 reasonResolved := some .canceled,
                 scheduled := some now, resolved := some now }]
      takenUntil := 0 }

/-- The `cancelTask` handler on a loaded task (deadline check, modify,
conditional resolved message and task-exception publication). -/
def cancelTask (t : Task) (now : Time) : Outcome Status × List Event × Task :=
  if t.deadline < now then
    (.err .requestConflict, [], t)
  else
    let t' := cancelMutator now t
    let evs :=
      match t'.runs[t'.runs.length - 1]? with
      | some run =>
        if run.state = .exception ∧ run.reasonResolved = some .canceled then
          [Event.resolvedMsg t'.taskId "exception",
           Event.taskException t'.taskId (t'.runs.length - 1)]
        else []
      | none => []
    (.ok t'.status, evs, t')

/-! ### rerunTask -/

/-- The mutator body of `task.modify` inside `rerunTask`: append a
`rerun` pending run when the last run is terminal and fewer than
`MAX_RUNS_ALLOWED` runs exist, and reset `retriesLeft`. -/
def rerunMutator (now : Time) (t : Task) : Task :=
  -- JS: (_.last(task.runs) || {state: 'unscheduled'}).state; `none`
  -- stands for the 'unscheduled' default
  let lastState : Option RunState := (t.runs[t.runs.length - 1]?).map (·.state)
  if lastState = some .pending ∨ lastState = some .running then t
  else if t.runs.length ≥ MAX_RUNS_ALLOWED then t
  else
    let runs := t.runs ++ [pendingRun .rerun now]
    { t with
      runs := runs
      retriesLeft := min t.retries (MAX_RUNS_ALLOWED - runs.length)
      takenUntil := 0 }

/-- The `rerunTask` handler on a loaded task. -/
def rerunTask (t : Task) (now : Time) : Outcome Status × List Event × Task :=
  if t.deadline < now then
    (.err .requestConflict, [], t)
  else
    let t' := rerunMutator now t
    if t'.state ≠ "pending" ∧ t'.state ≠ "running" ∧
        t'.runs.length ≥ MAX_RUNS_ALLOWED then
      (.err .requestConflict, [], t')
    else
      let evs :=
        if t'.state = "pending" then
          [Event.pendingMsg t'.taskId (t'.runs.length - 1),
           Event.taskPending t'.taskId (t'.runs.length - 1)]
        else []
      (.ok t'.status, evs, t')

/-! ### reclaimTask -/

/-- The mutator body of `task.modify` inside `reclaimTask`: update
`takenUntil` on the last running run only when the proposed value is
strictly greater than the current one.  The Bool reports whether the
claim-expiration message was put (the `msgPut` flag). -/
def reclaimMutator (runId : Nat) (tu : Time) (t : Task) : Task × Bool :=
  match t.runs[runId]? with
  | none => (t, false)
  | some run =>
    if t.runs.length - 1 ≠ runId ∨ run.state ≠ .running then (t, false)
    else
      -- JS: `new Date(run.takenUntil).getTime() >= takenUntil` is false
      -- when `run.takenUntil` is undefined (NaN comparison)
      let notGreater : Bool :=
        match run.takenUntil with
        | some cur => tu ≤ cur
        | none => false
      if notGreater then (t, false)
      else
        ({ t with
           runs := t.runs.set runId { run with takenUntil := some tu }
           takenUntil := tu }, true)

/-- Reply of a successful `reclaimTask`. -/
structure ReclaimReply where
  status : Status
  runId : Nat
  workerGroup : Option String
  workerId : Option String
  takenUntil : Time
deriving DecidableEq, Repr

/-- The `reclaimTask` handler on a loaded task.  `claimTimeoutS` is the
claim timeout in seconds (the code does `setSeconds(+claimTimeout)`). -/
def reclaimTask (t : Task) (runId : Nat) (claimTimeoutS : Int) (now : Time) :
    Outcome ReclaimReply × List Event × Task :=
  match t.runs[runId]? with
  | none => (.err .resourceNotFound, [], t)
  | some _ =>
    if t.deadline ≤ now then
      (.err .requestConflict, [], t)
    else
      let tu := now + claimTimeoutS * 1000
      let (t', msgPut) := reclaimMutator runId tu t
      let evs := if msgPut then [Event.claimMsg t.taskId runId tu] else []
      match t'.runs[runId]? with
      | none => (.err .requestConflict, evs, t')
      | some run =>
        if t'.runs.length - 1 ≠ runId ∨ run.state ≠ .running then
          (.err .requestConflict, evs, t')
        else
          (.ok { status := t'.status, runId := runId,
                 workerGroup := run.workerGroup, workerId := run.workerId,
                 takenUntil := tu }, evs, t')

/-! ### resolveTask (reportCompleted / reportFailed) -/

/-- An Artifact row; only `storageType` and `present` are read by the
queue core. -/
structure Artifact where
  taskId : String
  runId : Nat
  name : String
  storageType : String
  present : Bool
deriving DecidableEq, Repr

/-- The `Artifact.query` in `resolveTask`: is there an artifact of
storage type `blob` for this run with `present = false`? -/
def missingBlobArtifact (arts : List Artifact) (taskId : String) (runId : Nat) : Bool :=
  arts.any fun a =>
    a.taskId = taskId ∧ a.runId = runId ∧
    a.storageType = "blob" ∧ a.present = false

/-- Map a resolution target to the `reasonResolved` it sets. -/
def targetReason : RunState → Reason
  | .failed => .failed
  | _ => .completed

/-- The mutator body of `task.modify` inside `resolveTask`: resolve the
last running run as `target` (`completed` or `failed`). -/
def resolveMutator (runId : Nat) (target : RunState) (now : Time) (t : Task) : Task :=
  match t.runs[runId]? with
  | none => t
  | some run =>
    if t.runs.length - 1 ≠ runId ∨ run.state ≠ .running then t
    else
      { t with
        runs := t.runs.set runId
          { run with state := target, reasonResolved := some (targetReason target),
                     resolved := some now }
        takenUntil := 0 }

/-- Render a target state for the resolved queue message. -/
def targetName : RunState → String
  | .failed => "failed"
  | _ => "completed"

/-- The shared `resolveTask` helper behind `reportCompleted` and
`reportFailed` (`target` is `completed` or `failed`). -/
def resolveTask (arts : List Artifact) (t : Task) (runId : Nat)
    (target : RunState) (now : Time) : Outcome Status × List Event × Task :=
  match t.runs[runId]? with
  | none => (.err .resourceNotFound, [], t)
  | some _ =>
    if target = .completed ∧ missingBlobArtifact arts t.taskId runId then
      (.err .requestConflict, [], t)
    else
      let t' := resolveMutator runId target now t
      match t'.runs[runId]? with
      | none => (.err .requestConflict, [], t')
      | some run =>
        if t'.runs.length - 1 ≠ runId ∨ run.state ≠ target ∨
            run.reasonResolved ≠ some (targetReason target) then
          (.err .requestConflict, [], t')
        else
          let evs :=
            [Event.resolvedMsg t'.taskId (targetName target)] ++
            (if target = .completed then [Event.taskCompleted t'.taskId runId]
             else [Event.taskFailed t'.taskId runId])
          (.ok t'.status, evs, t')

/-- JSON values relevant to the `reportCompleted` request body. -/
inductive JsonVal
  | jbool (b : Bool)
  | jother
deriving DecidableEq, Repr

/-- The `reportCompleted` request body: `success` is absent or some
JSON value. -/
structure ReqBody where
  success : Option JsonVal := none
deriving DecidableEq, Repr

/-- `reportCompleted` resolves as `failed` exactly when the body has
`success === false` (strict equality), else as `completed`. -/
def reportCompleted (arts : List Artifact) (t : Task) (runId : Nat)
    (body : ReqBody) (now : Time) : Outcome Status × List Event × Task :=
  let target : RunState :=
    if body.success = some (.jbool false) then .failed else .completed
  resolveTask arts t runId target now

/-- `reportFailed` resolves the run as `failed`. -/
def reportFailed (arts : List Artifact) (t : Task) (runId : Nat) (now : Time) :
    Outcome Status × List Event × Task :=
  resolveTask arts t runId .failed now

/-! ### reportException -/

/-- The mutator body of `task.modify` inside `reportException`: resolve
the last running run as exception with the given reason, and append a
retry (`worker-shutdown`) or task-retry (`intermittent-task`) pending
run when `retriesLeft > 0`, decrementing `retriesLeft`. -/
def reportExceptionMutator (runId : Nat) (reason : Reason) (now : Time)
    (t : Task) : Task :=
  match t.runs[runId]? with
  | none => t
  | some run =>
    if t.runs.length - 1 ≠ runId ∨ run.state ≠ .running then t
    else
      let t1 :=
        { t with
          runs := t.runs.set runId
            { run with state := .exception, reasonResolved := some reason,
                       resolved := some now }
          takenUntil := 0 }
      let t2 :=
        if reason = .workerShutdown ∧ t1.retriesLeft > 0 then
          { t1 with retriesLeft := t1.retriesLeft - 1,
                    runs := t1.runs ++ [pendingRun .retry now] }
        else t1
      if reason = .intermittentTask ∧ t2.retriesLeft > 0 then
        { t2 with retriesLeft := t2.retriesLeft - 1,
                  runs := t2.runs ++ [pendingRun .taskRetry now] }
      else t2

/-- Does the post-modify task of `reportException` carry a freshly
appended retry run (`newRun` pending with `reasonCreated` retry or
task-retry, as the last run)? -/
def exceptionRetried (t' : Task) (runId : Nat) : Bool :=
  match t'.runs[runId + 1]? with
  | some newRun =>
    decide (t'.runs.length - 1 = runId + 1 ∧ newRun.state = .pending ∧
      (newRun.reasonCreated = .retry ∨ newRun.reasonCreated = .taskRetry))
  | none => false

/-- The `reportException` handler on a loaded task. -/
def reportException (t : Task) (runId : Nat) (reason : Reason) (now : Time) :
    Outcome Status × List Event × Task :=
  match t.runs[runId]? with
  | none => (.err .resourceNotFound, [], t)
  | some _ =>
    let t' := reportExceptionMutator runId reason now t
    match t'.runs[runId]? with
    | none => (.err .requestConflict, [], t')
    | some run =>
      if t'.runs.length - 1 > runId + 1 ∨ run.state ≠ .exception ∨
          run.reasonResolved ≠ some reason then
        (.err .requestConflict, [], t')
      else
        if exceptionRetried t' runId then
          (.ok t'.status,
           [Event.pendingMsg t'.taskId (runId + 1),
            Event.taskPending t'.taskId (runId + 1)], t')
        else
          (.ok t'.status,
           [Event.resolvedMsg t'.taskId "exception",
            Event.taskException t'.taskId runId], t')

/-- JS `s.endsWith("**")`: the last two characters are both `*`.
Written over the character list because `String.endsWith` does not
reduce in the kernel. -/
def endsWithStarStar (s : String) : Bool :=
  s.data.reverse.take 2 == [Char.ofNat 42, Char.ofNat 42]

/-! ### Validation of task definitions (patchAndValidateTaskDef) -/

/-- `patchAndValidateTaskDef`: default `taskGroupId` and `expires`,
validate the timestamps, normalize `priority`.  A single `now` stands
for the several `new Date()` calls of the handler. -/
def patchAndValidateTaskDef (taskId : String) (d0 : TaskDef) (now : Time) :
    Except String TaskDef :=
  let d := if d0.taskGroupId = "" then { d0 with taskGroupId := taskId } else d0
  if d.created < now - driftMs then
    .error "Created timestamp cannot be in the past (max 15min drift)"
  else if d.created > now + driftMs then
    .error "Created timestamp cannot be in the future (max 15min drift)"
  else if d.created > d.deadline then
    .error "Deadline cannot be past created"
  else if d.deadline < now then
    .error "Deadline cannot be in the past"
  else if d.deadline - now > fiveDaysMs + driftMs then
    .error "Deadline cannot be more than 5 days into the future"
  else
    let d :=
      match d.expires with
      | none => { d with expires := some (d.deadline + oneYearMs) }
      | some _ => d
    if d.deadline > d.expires.getD 0 then
      .error "Expires cannot be before the deadline"
    else
      let d := if d.priority = "normal" then { d with priority := "lowest" } else d
      .ok d

/-! ### The row store state -/

/-- A TaskGroup row. -/
structure TaskGroupRow where
  schedulerId : String
  expires : Time
deriving DecidableEq, Repr

/-- A TaskGroupMember / TaskGroupActiveSet row. -/
structure MemberRow where
  taskGroupId : String
  taskId : String
  expires : Time
deriving DecidableEq, Repr

/-- The rows that `createTask` / `defineTask` touch.  `edges` holds the
forward dependency links (dependentTaskId, requiredTaskId) written by
the dependency tracker. -/
structure QState where
  tasks : List (String × Task) := []
  groups : List (String × TaskGroupRow) := []
  members : List MemberRow := []
  activeSet : List MemberRow := []
  edges : List (String × String) := []
deriving DecidableEq, Repr

/-- `Task.load` by taskId. -/
def lookupTask (s : QState) (id : String) : Option Task :=
  (s.tasks.find? (fun p => p.1 == id)).map (·.2)

/-- Store an updated task row under its taskId. -/
def updateTask (s : QState) (t : Task) : QState :=
  { s with tasks := s.tasks.map (fun p => if p.1 == t.taskId then (p.1, t) else p) }

/-- `Task.create`: prepend the new row (the caller checks absence). -/
def insertTask (s : QState) (t : Task) : QState :=
  { s with tasks := (t.taskId, t) :: s.tasks }

/-- `TaskGroup.load`. -/
def lookupGroup (s : QState) (id : String) : Option TaskGroupRow :=
  (s.groups.find? (fun p => p.1 == id)).map (·.2)

/-- Store an updated TaskGroup row. -/
def updateGroup (s : QState) (id : String) (g : TaskGroupRow) : QState :=
  { s with groups := s.groups.map (fun p => if p.1 == id then (p.1, g) else p) }

/-- `TaskGroupMember.load` by (taskGroupId, taskId). -/
def findMember (rows : List MemberRow) (gid tid : String) : Option MemberRow :=
  rows.find? (fun m => m.taskGroupId == gid && m.taskId == tid)

/-- The TaskGroupMember write of `ensureTaskGroup`: create the row,
ignoring EntityAlreadyExists. -/
def ensureMember (taskId taskGroupId : String) (expires : Time) (s : QState) : QState :=
  match findMember s.members taskGroupId taskId with
  | some _ => s
  | none =>
    { s with members :=
        { taskGroupId := taskGroupId, taskId := taskId, expires := expires } ::
          s.members }

/-- The TaskGroupActiveSet write of `ensureTaskGroup`: create the row;
on EntityAlreadyExists load it and report a conflict (`false`) when its
`expires` differs (a taskId collision). -/
def ensureActiveSet (taskId taskGroupId : String) (expires : Time) (s : QState) :
    Bool × QState :=
  match findMember s.activeSet taskGroupId taskId with
  | none =>
    (true, { s with activeSet :=
        { taskGroupId := taskGroupId, taskId := taskId, expires := expires } ::
          s.activeSet })
  | some row =>
    if row.expires ≠ expires then (false, s) else (true, s)

/-- `ensureTaskGroup`: create or check the TaskGroup row, extend its
expiry, and declare membership.  Returns `false` on a reported
RequestConflict, together with the rows written so far (writes before
the failing check persist, as in the handler). -/
def ensureTaskGroup (ext : Int) (taskId : String) (d : TaskDef) (s : QState) :
    Bool × QState :=
  let taskGroupId := d.taskGroupId
  -- `d` is patched, so `d.expires` is always `some`
  let expires := d.expires.getD 0
  let taskGroupExpiration := expires + ext * 1000
  let (taskGroup, s) :=
    match lookupGroup s taskGroupId with
    | some g => (g, s)
    | none =>
      let g : TaskGroupRow := { schedulerId := d.schedulerId, expires := taskGroupExpiration }
      (g, { s with groups := (taskGroupId, g) :: s.groups })
  if taskGroup.schedulerId ≠ d.schedulerId then
    (false, s)
  else
    let g' := if taskGroup.expires < expires
              then { taskGroup with expires := taskGroupExpiration }
              else taskGroup
    let s := updateGroup s taskGroupId g'
    let s := ensureMember taskId taskGroupId expires s
    ensureActiveSet taskId taskGroupId expires s

/-! ### DependencyTracker (modelled from the spec) -/

/-- Modelled from the spec: is the dependency on `reqId` satisfied for
a dependent with the given requires mode (§4.4: `all-completed` needs
a `completed` last run, `all-resolved` any terminal last run)? -/
def depSatisfied (s : QState) (requiresMode reqId : String) : Bool :=
  match lookupTask s reqId with
  | none => false
  | some dt =>
    match dt.runs[dt.runs.length - 1]? with
    | none => false
    | some r =>
      if requiresMode = "all-completed" then decide (r.state = .completed)
      else r.state.isTerminal

/-- Modelled from the spec: `scheduleTask` appends a `pending` run with
`reasonCreated = scheduled` iff the task is currently unscheduled
(§4.4). -/
def scheduleMutator (now : Time) (t : Task) : Task :=
  if t.runs.length = 0 then { t with runs := [pendingRun .scheduled now] } else t

/-- Modelled from the spec: `DependencyTracker.scheduleTask` (the
dependencytracker module is not in the source tree): `none` is the
null sentinel for a past-deadline task; otherwise append a pending run
iff unscheduled, emitting a pending message and a `task-pending`
event for the new run. -/
def scheduleTaskModel (s : QState) (t : Task) (now : Time) :
    Option (QState × Task × List Event) :=
  if t.deadline < now then none
  else
    let t' := scheduleMutator now t
    let evs :=
      if t.runs.length = 0 then
        [Event.pendingMsg t.taskId (t'.runs.length - 1),
         Event.taskPending t.taskId (t'.runs.length - 1)]
      else []
    some (updateTask s t', t', evs)

/-- Modelled from the spec: the idempotent forward-edge write of the
dependency tracker (§4.4). -/
def writeEdges (s : QState) (t : Task) : QState :=
  { s with
    edges := s.edges ++
      (t.dependencies.map (fun dep => (t.taskId, dep))).filter
        (fun e => ¬ s.edges.contains e) }

/-- Modelled from the spec: `DependencyTracker.trackDependencies`
(§4.4, the dependencytracker module is not in the source tree): report
an InputError when a dependency does not exist, write the forward
edges (idempotently), and call `scheduleTask` when every dependency is
already satisfied.  A past-deadline sentinel from `scheduleTask` is
treated as leaving the task unchanged (unreachable from `createTask`,
which has already validated the deadline). -/
def trackDependencies (s : QState) (t : Task) (now : Time) :
    Except String (QState × Task × List Event) :=
  if t.dependencies.any (fun dep => (lookupTask s dep).isNone) then
    .error "dependencies requires existing tasks"
  else
    let s := writeEdges s t
    if t.dependencies.all (fun dep => depSatisfied s t.requires dep) then
      match scheduleTaskModel s t now with
      | none => .ok (s, t, [])
      | some (s', t', evs) => .ok (s', t', evs)
    else
      .ok (s, t, [])

/-! ### createTask / defineTask -/

/-- Build the Task row inserted by `Task.create` in `createTask` /
`defineTask` (`d` is patched, so `d.expires` is `some`). -/
def freshTask (taskId : String) (d : TaskDef) (runs : List Run) : Task :=
  { taskId := taskId
    provisionerId := d.provisionerId
    workerType := d.workerType
    schedulerId := d.schedulerId
    taskGroupId := d.taskGroupId
    dependencies := d.dependencies
    requires := d.requires
    routes := d.routes
    priority := d.priority
    retries := d.retries
    retriesLeft := d.retries
    created := d.created
    deadline := d.deadline
    expires := d.expires.getD 0
    scopes := d.scopes
    payload := d.payload
    metadata := d.metadata
    tags := d.tags
    extra := d.extra
    runs := runs
    takenUntil := 0 }

/-- The publication tail of `createTask`: publish `task-defined` when
run 0 is absent or pending, plus the pending message and `task-pending`
when run 0 is pending. -/
def createTaskPublish (s : QState) (t : Task) (evs : List Event) :
    Outcome Status × List Event × QState :=
  match (t.runs[0]?).map (·.state) with
  | some RunState.pending =>
    (.ok t.status,
     evs ++ [Event.taskDefined t.taskId, Event.pendingMsg t.taskId 0,
             Event.taskPending t.taskId 0], s)
  | none => (.ok t.status, evs ++ [Event.taskDefined t.taskId], s)
  | some _ => (.ok t.status, evs, s)

/-- The tail of `createTask` after the Task row exists: track
dependencies when the task is unscheduled, then publish. -/
def createTaskFinish (s : QState) (t : Task) (now : Time) (evs : List Event) :
    Outcome Status × List Event × QState :=
  if t.state = "unscheduled" then
    match trackDependencies s t now with
    | .error m => (.err (.inputError m), evs, s)
    | .ok (s', t', evT) => createTaskPublish s' t' (evs ++ evT)
  else createTaskPublish s t evs

/-- The `createTask` handler.  `ext` is `taskGroupExpiresExtension`
in seconds. -/
def createTask (ext : Int) (taskId : String) (d0 : TaskDef) (now : Time)
    (s : QState) : Outcome Status × List Event × QState :=
  match patchAndValidateTaskDef taskId d0 now with
  | .error m => (.err (.inputError m), [], s)
  | .ok d =>
    if d.scopes.any (fun sc => endsWithStarStar sc) then
      (.err (.inputError "scopes must not end with **"), [], s)
    else
      match ensureTaskGroup ext taskId d s with
      | (false, s1) => (.err .requestConflict, [], s1)
      | (true, s1) =>
        let evs := [Event.deadlineMsg taskId d.deadline]
        match lookupTask s1 taskId with
        | none =>
          let runs := if d.dependencies.length = 0
                      then [pendingRun .scheduled now] else []
          let t := freshTask taskId d runs
          createTaskFinish (insertTask s1 t) t now evs
        | some t0 =>
          if t0.definition ≠ d then (.err .requestConflict, evs, s1)
          else createTaskFinish s1 t0 now evs

/-- The publication tail of `defineTask`: publish `task-defined` only
when the task still has no runs. -/
def defineTaskPublish (s : QState) (t : Task) (evs : List Event) :
    Outcome Status × List Event × QState :=
  if t.runs.length > 0 then (.ok t.status, evs, s)
  else (.ok t.status, evs ++ [Event.taskDefined t.taskId], s)

/-- The tail of `defineTask` after the Task row exists. -/
def defineTaskFinish (s : QState) (t : Task) (now : Time) (evs : List Event) :
    Outcome Status × List Event × QState :=
  if t.state = "unscheduled" then
    match trackDependencies s t now with
    | .error m => (.err (.inputError m), evs, s)
    | .ok (s', t', evT) => defineTaskPublish s' t' (evs ++ evT)
  else defineTaskPublish s t evs

/-- The `defineTask` handler: like `createTask` but without the scope
check, with a self-dependency forced, and with `runs = []` always. -/
def defineTask (ext : Int) (taskId : String) (d0 : TaskDef) (now : Time)
    (s : QState) : Outcome Status × List Event × QState :=
  match patchAndValidateTaskDef taskId d0 now with
  | .error m => (.err (.inputError m), [], s)
  | .ok d1 =>
    let d := if taskId ∈ d1.dependencies then d1
             else { d1 with dependencies := taskId :: d1.dependencies }
    match ensureTaskGroup ext taskId d s with
    | (false, s1) => (.err .requestConflict, [], s1)
    | (true, s1) =>
      let evs := [Event.deadlineMsg taskId d.deadline]
      match lookupTask s1 taskId with
      | none =>
        let t := freshTask taskId d []
        defineTaskFinish (insertTask s1 t) t now evs
      | some t0 =>
        if t0.definition ≠ d then (.err .requestConflict, evs, s1)
        else defineTaskFinish s1 t0 now evs

/-! ### Worker claim and background resolvers (modelled from the spec) -/

/-- Modelled from the spec: the WorkClaimer claim transition (§4.6, the
workclaimer module is not in the source tree): a pending run becomes
running with `started`, worker identity and `takenUntil = now +
claimTimeout` recorded; a non-pending run is an advisory ghost and is
left untouched. -/
def claimMutator (runId : Nat) (wg wi : String) (now tu : Time) (t : Task) : Task :=
  match t.runs[runId]? with
  | none => t
  | some run =>
    if run.state ≠ .pending then t
    else
      { t with
        runs := t.runs.set runId
          { run with state := .running, started := some now,
                     workerGroup := some wg, workerId := some wi,
                     takenUntil := some tu }
        takenUntil := tu }

/-- Modelled from the spec: the claim-expiration resolver (§4.7, the
claimresolver module is not in the source tree): when the run is still
running with a matching `takenUntil`, resolve it `claim-expired`; with
`retriesLeft > 0`, decrement and append a `retry` pending run. -/
def claimExpiredMutator (runId : Nat) (msgTakenUntil now : Time) (t : Task) : Task :=
  match t.runs[runId]? with
  | none => t
  | some run =>
    if run.state = .running ∧ run.takenUntil = some msgTakenUntil then
      let t1 :=
        { t with
          runs := t.runs.set runId
            { run with state := .exception, reasonResolved := some .claimExpired,
                       resolved := some now }
          takenUntil := 0 }
      if t1.retriesLeft > 0 then
        { t1 with retriesLeft := t1.retriesLeft - 1,
                  runs := t1.runs ++ [pendingRun .retry now] }
      else t1
    else t

/-- Modelled from the spec: the deadline resolver (§4.7, the
deadlineresolver module is not in the source tree): with a matching
deadline, resolve an active pending/running last run as
`deadline-exceeded`, or append a synthetic exception run when the task
has no runs; a resolved task is left untouched. -/
def deadlineExpiredMutator (msgDeadline now : Time) (t : Task) : Task :=
  if t.deadline ≠ msgDeadline then t
  else
    match t.runs[t.runs.length - 1]? with
    | none =>
      { t with
        runs := [{ state := .exception, reasonCreated := .exceptionCr,
                   reasonResolved := some .deadlineExceeded,
                   scheduled := some now, resolved := some now }]
        takenUntil := 0 }
    | some r =>
      if r.state = .pending ∨ r.state = .running then
        { t with
          runs := t.runs.set (t.runs.length - 1)
            { r with state := .exception,
                     reasonResolved := some .deadlineExceeded,
                     resolved := some now }
          takenUntil := 0 }
      else t

/-! ## Theorems -/

/-- The canceled exception run appended when a task without runs is
canceled. -/
def canceledRun (now : Time) : Run :=
  { state := .exception, reasonCreated := .exceptionCr,
    reasonResolved := some .canceled,
    scheduled := some now, resolved := some now }

/-- C3: for an existing task whose deadline has not passed,
`cancelTask` resolves a pending or running last run as exception with
`reasonResolved = canceled` and `resolved = now`; with no runs it
appends a canceled exception run; with a terminal last run it changes
nothing (beyond clearing `takenUntil`, which the status does not
expose) and returns the current status; past the deadline it returns
RequestConflict. -/
theorem cancelTask_spec (t : Task) (now : Time) :
    (t.deadline < now → cancelTask t now = (.err .requestConflict, [], t)) ∧
    (now ≤ t.deadline →
      (∀ r, t.runs[t.runs.length - 1]? = some r →
        (r.state = .pending ∨ r.state = .running) →
        (cancelTask t now).2.2.runs[t.runs.length - 1]? =
          some { r with state := .exception, reasonResolved := some .canceled,
                        resolved := some now } ∧
        (cancelTask t now).2.2.runs.length = t.runs.length ∧
        (cancelTask t now).1 = .ok (cancelTask t now).2.2.status) ∧
      (t.runs = [] →
        cancelTask t now =
          (.ok ({ t with runs := [canceledRun now], takenUntil := 0 } : Task).status,
           [Event.resolvedMsg t.taskId "exception", Event.taskException t.taskId 0],
           { t with runs := [canceledRun now], takenUntil := 0 })) ∧
      (∀ r, t.runs[t.runs.length - 1]? = some r → r.state.isTerminal →
        (cancelTask t now).2.2 = { t with takenUntil := 0 } ∧
        (cancelTask t now).1 = .ok ({ t with takenUntil := 0 } : Task).status)) := by
  constructor
  · intro h
    simp [cancelTask, h]
  · intro hdl
    have hnot : ¬ t.deadline < now := not_lt.mpr hdl
    refine ⟨?_, ?_, ?_⟩
    · intro r hr hact
      have hlt : t.runs.length - 1 < t.runs.length := by
        rcases List.getElem?_eq_some.mp hr with ⟨h1, _⟩
        exact h1
      simp only [cancelTask, hnot, if_false, cancelMutator, hr, hact, if_true]
      constructor
      · simp [List.getElem?_set, hlt]
      constructor
      · simp
      · simp [List.getElem?_set, hlt]
    · intro hempty
      simp [cancelTask, hnot, cancelMutator, hempty, canceledRun]
    · intro r hr hterm
      have hact : ¬ (r.state = .pending ∨ r.state = .running) := by
        intro hc
        rcases hc with hc | hc <;> simp [hc, RunState.isTerminal] at hterm
      simp only [cancelTask, hnot, if_false, cancelMutator, hr, hact, if_false]
      constructor
      · trivial
      · simp [hr, hterm]

/-- C1: with the run at `runId` being the last run and running,
`reportException` with reason `worker-shutdown` or `intermittent-task`
and `retriesLeft > 0` decrements `retriesLeft` by one, appends a new
pending run with `reasonCreated` retry resp. task-retry, emits exactly
a pending message and a `task-pending` event for the new run (no
task-exception); with `retriesLeft = 0` or any other reason it appends
no run and emits exactly a resolved message and `task-exception`. -/
theorem reportException_retry_spec
    (t : Task) (runId : Nat) (reason : Reason) (now : Time) (run : Run)
    (hrun : t.runs[runId]? = some run)
    (hlast : runId = t.runs.length - 1)
    (hrunning : run.state = .running) :
    ((reason = .workerShutdown ∨ reason = .intermittentTask) → 0 < t.retriesLeft →
      (reportException t runId reason now).2.2.retriesLeft = t.retriesLeft - 1 ∧
      (reportException t runId reason now).2.2.runs.length = t.runs.length + 1 ∧
      (reportException t runId reason now).2.2.runs[runId + 1]? =
        some (pendingRun
          (if reason = .workerShutdown then .retry else .taskRetry) now) ∧
      (reportException t runId reason now).2.1 =
        [Event.pendingMsg t.taskId (runId + 1),
         Event.taskPending t.taskId (runId + 1)] ∧
      (reportException t runId reason now).1 =
        .ok (reportException t runId reason now).2.2.status) ∧
    (((reason ≠ .workerShutdown ∧ reason ≠ .intermittentTask) ∨ t.retriesLeft = 0) →
      (reportException t runId reason now).2.2.runs.length = t.runs.length ∧
      (reportException t runId reason now).2.1 =
        [Event.resolvedMsg t.taskId "exception",
         Event.taskException t.taskId runId] ∧
      (reportException t runId reason now).1 =
        .ok (reportException t runId reason now).2.2.status) := by
  have hlt : runId < t.runs.length := (List.getElem?_eq_some.mp hrun).1
  have hlen : t.runs.length = runId + 1 := by omega
  have hmguard : ¬(t.runs.length - 1 ≠ runId ∨ run.state ≠ RunState.running) := by
    simp [hlen, hrunning]
  constructor
  · rintro (hws | hws) hpos
    · subst hws
      simp only [reportException, reportExceptionMutator, hrun, hmguard, if_false,
        reduceCtorEq, false_and, and_true, if_pos, hpos, and_self, if_true,
        exceptionRetried]
      simp [List.getElem?_append, List.getElem?_set, hlt, hlen, pendingRun]
    · subst hws
      simp only [reportException, reportExceptionMutator, hrun, hmguard, if_false,
        reduceCtorEq, false_and, and_true, if_pos, hpos, and_self, if_true,
        exceptionRetried]
      simp [List.getElem?_append, List.getElem?_set, hlt, hlen, pendingRun]
  · have hnone : t.runs[runId + 1]? = none := List.getElem?_eq_none (by omega)
    rintro (⟨hw, hi⟩ | hzero)
    · simp only [reportException, reportExceptionMutator, hrun, hmguard, if_false,
        hw, hi, false_and, if_false, exceptionRetried]
      simp [List.getElem?_set, hlt, hlen, hrunning, hw, hi, hnone]
    · simp only [reportException, reportExceptionMutator, hrun, hmguard, if_false,
        hzero, exceptionRetried]
      simp [List.getElem?_set, hlt, hlen, hrunning, hzero, hnone]

/-- C4 (amended): `reportCompleted` on a task whose last run is running
succeeds, resolving the run as completed, exactly when every artifact
of storage type `blob` (not `object`, as the code predates the object
service) for this (taskId, runId) has `present = true`; with a
non-present blob artifact it returns RequestConflict and leaves the
task (hence the running run) unchanged. -/
theorem reportCompleted_blob_gate
    (arts : List Artifact) (t : Task) (runId : Nat) (now : Time) (run : Run)
    (hrun : t.runs[runId]? = some run)
    (hlast : runId = t.runs.length - 1)
    (hrunning : run.state = .running) :
    ((∃ a ∈ arts, a.taskId = t.taskId ∧ a.runId = runId ∧
        a.storageType = "blob" ∧ a.present = false) →
      reportCompleted arts t runId {} now = (.err .requestConflict, [], t)) ∧
    ((∀ a ∈ arts, a.taskId = t.taskId → a.runId = runId →
        a.storageType = "blob" → a.present = true) →
      (reportCompleted arts t runId {} now).2.2.runs[runId]? =
        some { run with state := .completed, reasonResolved := some .completed,
                        resolved := some now } ∧
      (reportCompleted arts t runId {} now).1 =
        .ok (reportCompleted arts t runId {} now).2.2.status) := by
  have hlt : runId < t.runs.length := (List.getElem?_eq_some.mp hrun).1
  have hmguard : ¬(t.runs.length - 1 ≠ runId ∨ run.state ≠ RunState.running) := by
    simp [hlast, hrunning]
  constructor
  · rintro ⟨a, ha, h1, h2, h3, h4⟩
    have hmiss : missingBlobArtifact arts t.taskId runId = true := by
      simp only [missingBlobArtifact, List.any_eq_true, decide_eq_true_eq]
      exact ⟨a, ha, h1, h2, h3, by simp [h4]⟩
    simp [reportCompleted, resolveTask, hrun, hmiss]
  · intro hall
    have hmiss : missingBlobArtifact arts t.taskId runId = false := by
      simp only [missingBlobArtifact, List.any_eq_false, decide_eq_true_eq, not_and]
      intro a ha h1 h2 h3
      simp [hall a ha h1 h2 h3]
    have hpos : 0 < t.runs.length := by omega
    simp only [reportCompleted, resolveTask, resolveMutator, hrun, hmiss,
      Bool.false_eq_true, and_false, if_false, hmguard, targetReason]
    simp [List.getElem?_set, hlt, hlast, hpos]

/-- C10 (amended): with the last run running, `reportCompleted` with a
body where `success === false` resolves the run as failed
(unconditionally, publishing `task-failed`); with any other body it
resolves the run as completed, provided every blob artifact for the
run is present (otherwise the artifact gate returns RequestConflict
before any change). -/
theorem reportCompleted_success_flag
    (arts : List Artifact) (t : Task) (runId : Nat) (body : ReqBody)
    (now : Time) (run : Run)
    (hrun : t.runs[runId]? = some run)
    (hlast : runId = t.runs.length - 1)
    (hrunning : run.state = .running) :
    (body.success = some (.jbool false) →
      (reportCompleted arts t runId body now).2.2.runs[runId]? =
        some { run with state := .failed, reasonResolved := some .failed,
                        resolved := some now } ∧
      (reportCompleted arts t runId body now).2.1 =
        [Event.resolvedMsg t.taskId "failed", Event.taskFailed t.taskId runId] ∧
      (reportCompleted arts t runId body now).1 =
        .ok (reportCompleted arts t runId body now).2.2.status) ∧
    (body.success ≠ some (.jbool false) →
      missingBlobArtifact arts t.taskId runId = false →
      (reportCompleted arts t runId body now).2.2.runs[runId]? =
        some { run with state := .completed, reasonResolved := some .completed,
                        resolved := some now } ∧
      (reportCompleted arts t runId body now).2.1 =
        [Event.resolvedMsg t.taskId "completed",
         Event.taskCompleted t.taskId runId] ∧
      (reportCompleted arts t runId body now).1 =
        .ok (reportCompleted arts t runId body now).2.2.status) := by
  have hlt : runId < t.runs.length := (List.getElem?_eq_some.mp hrun).1
  have hmguard : ¬(t.runs.length - 1 ≠ runId ∨ run.state ≠ RunState.running) := by
    simp [hlast, hrunning]
  constructor
  · intro hb
    have hpos : 0 < t.runs.length := by omega
    simp only [reportCompleted, hb, if_pos, resolveTask, resolveMutator, hrun,
      reduceCtorEq, false_and, if_false, hmguard, targetReason, targetName]
    simp [List.getElem?_set, hlt, hlast, hpos]
  · intro hb hmiss
    have hpos : 0 < t.runs.length := by omega
    simp only [reportCompleted, hb, if_neg, resolveTask, resolveMutator, hrun,
      hmiss, Bool.false_eq_true, and_false, if_false, hmguard, targetReason,
      targetName]
    simp [List.getElem?_set, hlt, hlast, hpos]

/-- C6 (amended): `reclaimTask` on an existing run returns
RequestConflict past the deadline or when the run is not the last run
or not running; on the last running run before the deadline it always
succeeds, returning `takenUntil = now + claimTimeout`, but advances the
stored `takenUntil` (and posts a claim-expiration message) only when
the proposed value is strictly greater than the current one — a
non-advancing reclaim still succeeds rather than returning
RequestConflict. -/
theorem reclaimTask_spec_amended
    (t : Task) (runId : Nat) (cts : Int) (now : Time) (run : Run)
    (hrun : t.runs[runId]? = some run) :
    (t.deadline ≤ now → reclaimTask t runId cts now = (.err .requestConflict, [], t)) ∧
    (now < t.deadline → (runId ≠ t.runs.length - 1 ∨ run.state ≠ .running) →
      (reclaimTask t runId cts now).1 = .err .requestConflict ∧
      (reclaimTask t runId cts now).2.2 = t) ∧
    (now < t.deadline → runId = t.runs.length - 1 → run.state = .running →
      (∃ rep, (reclaimTask t runId cts now).1 = .ok rep ∧
        rep.takenUntil = now + cts * 1000) ∧
      ((∃ cur, run.takenUntil = some cur ∧ now + cts * 1000 ≤ cur) →
        (reclaimTask t runId cts now).2.2 = t ∧
        (reclaimTask t runId cts now).2.1 = []) ∧
      ((∀ cur, run.takenUntil = some cur → cur < now + cts * 1000) →
        (reclaimTask t runId cts now).2.2.runs[runId]? =
          some { run with takenUntil := some (now + cts * 1000) } ∧
        (reclaimTask t runId cts now).2.1 =
          [Event.claimMsg t.taskId runId (now + cts * 1000)])) := by
  have hlt : runId < t.runs.length := (List.getElem?_eq_some.mp hrun).1
  refine ⟨?_, ?_, ?_⟩
  · intro h
    simp [reclaimTask, hrun, h]
  · intro hdl hnl
    have hndl : ¬ t.deadline ≤ now := not_le.mpr hdl
    have hguard : t.runs.length - 1 ≠ runId ∨ run.state ≠ RunState.running := by
      rcases hnl with h | h
      · exact Or.inl (fun hc => h hc.symm)
      · exact Or.inr h
    simp [reclaimTask, reclaimMutator, hrun, hndl, hguard]
  · intro hdl hlast hrunning
    have hndl : ¬ t.deadline ≤ now := not_le.mpr hdl
    have hmguard : ¬(t.runs.length - 1 ≠ runId ∨ run.state ≠ RunState.running) := by
      simp [hlast, hrunning]
    rcases hng : (match run.takenUntil with
      | some cur => decide (now + cts * 1000 ≤ cur)
      | none => false) with _ | _
    · -- advancing reclaim: the mutator updates takenUntil and puts a message
      refine ⟨⟨⟨(reclaimTask t runId cts now).2.2.status, runId,
          run.workerGroup, run.workerId, now + cts * 1000⟩, ?_, rfl⟩, ?_, ?_⟩
      · simp only [reclaimTask, reclaimMutator, hrun, hndl, if_false, hmguard, hng]
        simp [List.getElem?_set, hlt, hmguard]
      · rintro ⟨cur, hcur, hle⟩
        rw [hcur] at hng
        simp [hle] at hng
      · intro _
        simp only [reclaimTask, reclaimMutator, hrun, hndl, if_false, hmguard, hng]
        simp [List.getElem?_set, hlt, hmguard]
    · -- non-advancing reclaim: still a success reply, no state change
      refine ⟨⟨⟨t.status, runId, run.workerGroup, run.workerId,
          now + cts * 1000⟩, ?_, rfl⟩, ?_, ?_⟩
      · simp only [reclaimTask, reclaimMutator, hrun, hndl, if_false, hmguard, hng]
        simp [hrun, hmguard]
      · intro _
        simp only [reclaimTask, reclaimMutator, hrun, hndl, if_false, hmguard, hng]
        simp [hrun, hmguard]
      · intro hadv
        rcases h : run.takenUntil with _ | cur
        · rw [h] at hng
          simp at hng
        · have hcl := hadv cur h
          rw [h] at hng
          simp [not_le.mpr hcl] at hng

/-! ### Concrete fixtures for witnesses and counterexamples -/

/-- A sample running run claimed by a worker. -/
def runningRun : Run :=
  { state := .running, reasonCreated := .scheduled, scheduled := some 1,
    started := some 2, takenUntil := some 5000,
    workerGroup := some "wg", workerId := some "wid" }

/-- A sample task whose single run is running. -/
def baseTask : Task :=
  { taskId := "tid", provisionerId := "prov", workerType := "wt",
    schedulerId := "sched", taskGroupId := "tg", dependencies := [],
    requires := "all-completed", routes := [], priority := "lowest",
    retries := 5, retriesLeft := 2, created := 0, deadline := 100000,
    expires := 200000, scopes := [], payload := "", metadata := "",
    tags := "", extra := "", runs := [runningRun], takenUntil := 5000 }

/-- A sample task whose single run is pending. -/
def pendTask : Task :=
  { baseTask with runs := [pendingRun .scheduled 1], takenUntil := 0 }

/-- An object-storage artifact that is not present. -/
def objArtifact : Artifact :=
  { taskId := "tid", runId := 0, name := "pub/x",
    storageType := "object", present := false }

/-- A blob-storage artifact that is not present. -/
def blobArtifactMissing : Artifact :=
  { taskId := "tid", runId := 0, name := "pub/y",
    storageType := "blob", present := false }

/-- Witness for C1 at a concrete input: a worker-shutdown exception on
the running run of `baseTask` with two retries left. -/
theorem reportException_retry_spec_witness :
    (reportException baseTask 0 .workerShutdown 10).2.2.retriesLeft = 1 ∧
    (reportException baseTask 0 .workerShutdown 10).2.2.runs.length = 2 ∧
    (reportException baseTask 0 .workerShutdown 10).2.2.runs[1]? =
      some (pendingRun .retry 10) ∧
    (reportException baseTask 0 .workerShutdown 10).2.1 =
      [Event.pendingMsg baseTask.taskId 1, Event.taskPending baseTask.taskId 1] := by
  have h := (reportException_retry_spec baseTask 0 .workerShutdown 10 runningRun
    rfl (by decide) rfl).1 (Or.inl rfl) (by decide)
  refine ⟨h.1, by simpa using h.2.1, by simpa using h.2.2.1, by simpa using h.2.2.2.1⟩

/-- Witness for C3 at a concrete input: canceling `pendTask` before its
deadline resolves the pending run as exception/canceled. -/
theorem cancelTask_spec_witness :
    (cancelTask pendTask 10).2.2.runs[0]? =
      some { pendingRun .scheduled 1 with
             state := .exception,
             reasonResolved := some .canceled, resolved := some 10 } ∧
    (cancelTask pendTask 10).2.2.runs.length = 1 ∧
    (cancelTask pendTask 10).1 = .ok (cancelTask pendTask 10).2.2.status := by
  have h := ((cancelTask_spec pendTask 10).2 (by decide)).1
    (pendingRun .scheduled 1) rfl (Or.inl rfl)
  exact ⟨by simpa using h.1, by simpa using h.2.1, h.2.2⟩

/-- Counterexample to C4 as stated: an `object`-storage artifact with
`present = false` does not block `reportCompleted`; the call succeeds
and the run is resolved completed instead of RequestConflict. -/
theorem reportCompleted_object_cex :
    (reportCompleted [objArtifact] baseTask 0 {} 10).1 =
      .ok (reportCompleted [objArtifact] baseTask 0 {} 10).2.2.status ∧
    (reportCompleted [objArtifact] baseTask 0 {} 10).2.2.runs[0]? =
      some { runningRun with
             state := .completed,
             reasonResolved := some .completed, resolved := some 10 } := by
  decide

/-- Witness for C4 (amended) at concrete inputs: a missing blob
artifact forces RequestConflict, and with no artifacts the call
succeeds. -/
theorem reportCompleted_blob_gate_witness :
    reportCompleted [blobArtifactMissing] baseTask 0 {} 10 =
      (.err .requestConflict, [], baseTask) ∧
    (reportCompleted [] baseTask 0 {} 10).1 =
      .ok (reportCompleted [] baseTask 0 {} 10).2.2.status := by
  have h := reportCompleted_blob_gate [blobArtifactMissing] baseTask 0 10
    runningRun rfl (by decide) rfl
  have h2 := reportCompleted_blob_gate ([] : List Artifact) baseTask 0 10
    runningRun rfl (by decide) rfl
  refine ⟨h.1 ⟨blobArtifactMissing, by simp, rfl, rfl, rfl, rfl⟩, ?_⟩
  exact (h2.2 (by simp)).2

/-- Counterexample to C10 as stated: an empty body does not always
resolve the run as completed — with a non-present blob artifact the
call returns RequestConflict and changes nothing. -/
theorem reportCompleted_empty_body_cex :
    reportCompleted [blobArtifactMissing] baseTask 0 {} 10 =
      (.err .requestConflict, [], baseTask) := by
  decide

/-- Witness for C10 (amended) at concrete inputs: `success = false`
resolves failed; an empty body (with no artifacts) resolves
completed. -/
theorem reportCompleted_success_flag_witness :
    (reportCompleted [] baseTask 0 { success := some (.jbool false) } 10).2.2.runs[0]? =
      some { runningRun with
             state := .failed,
             reasonResolved := some .failed, resolved := some 10 } ∧
    (reportCompleted [] baseTask 0 {} 10).2.2.runs[0]? =
      some { runningRun with
             state := .completed,
             reasonResolved := some .completed, resolved := some 10 } := by
  have h := reportCompleted_success_flag ([] : List Artifact) baseTask 0
    { success := some (.jbool false) } 10 runningRun rfl (by decide) rfl
  have h2 := reportCompleted_success_flag ([] : List Artifact) baseTask 0
    {} 10 runningRun rfl (by decide) rfl
  exact ⟨by simpa using (h.1 rfl).1, by simpa using (h2.2 (by decide) rfl).1⟩

/-- A task whose running run already has `takenUntil = 10100`, which a
reclaim at `now = 100` with a 10 second claim timeout does not
advance. -/
def reclaimedTask : Task :=
  { baseTask with
    runs := [{ runningRun with takenUntil := some 10100 }],
    takenUntil := 10100 }

/-- Counterexample to C6 as stated: a reclaim that does not advance
`takenUntil` (current value equals the proposed `now + claimTimeout`)
succeeds with fresh credentials instead of returning RequestConflict,
and leaves the stored task unchanged. -/
theorem reclaimTask_no_advance_cex :
    (reclaimTask reclaimedTask 0 10 100).1 =
      .ok { status := reclaimedTask.status, runId := 0,
            workerGroup := some "wg", workerId := some "wid",
            takenUntil := 10100 } ∧
    (reclaimTask reclaimedTask 0 10 100).2.2 = reclaimedTask ∧
    (reclaimTask reclaimedTask 0 10 100).2.1 = [] := by
  decide

/-- Witness for C6 (amended) at concrete inputs: an advancing reclaim
updates the run and posts a claim message; a past-deadline reclaim
returns RequestConflict. -/
theorem reclaimTask_spec_amended_witness :
    ((reclaimTask baseTask 0 10 100).2.2.runs[0]? =
      some { runningRun with takenUntil := some 10100 } ∧
     (reclaimTask baseTask 0 10 100).2.1 =
      [Event.claimMsg baseTask.taskId 0 10100]) ∧
    reclaimTask baseTask 0 10 200000 = (.err .requestConflict, [], baseTask) := by
  have h := reclaimTask_spec_amended baseTask 0 10 100 runningRun rfl
  have h2 := reclaimTask_spec_amended baseTask 0 10 200000 runningRun rfl
  refine ⟨?_, h2.1 (by decide)⟩
  have h3 := (h.2.2 (by decide) (by decide) rfl).2.2 ?_
  · exact ⟨by simpa using h3.1, by simpa using h3.2⟩
  · intro cur hcur
    have hc : cur = 5000 := by
      have := hcur.symm
      simpa [runningRun] using this
    subst hc
    decide

/-! ### C7: createTask timestamp validation -/

/-- C7 (amended): the timestamp validation of `createTask` rejects with
InputError exactly when `created` is more than 15 minutes from `now`,
or `created > deadline`, or `deadline < now` (a deadline equal to `now`
is accepted), or `deadline` is more than 5 days plus drift past `now`
(measured from `now`, not from `created`), or the possibly-defaulted
`expires` is before `deadline`; and `createTask` propagates exactly
that error. -/
theorem createTask_validation_spec (ext : Int) (taskId : String) (d : TaskDef)
    (now : Time) (s : QState) :
    ((∃ m, patchAndValidateTaskDef taskId d now = .error m) ↔
      (d.created < now - driftMs ∨ d.created > now + driftMs ∨
       d.created > d.deadline ∨ d.deadline < now ∨
       d.deadline - now > fiveDaysMs + driftMs ∨
       d.expires.getD (d.deadline + oneYearMs) < d.deadline)) ∧
    (∀ m, patchAndValidateTaskDef taskId d now = .error m →
      createTask ext taskId d now s = (.err (.inputError m), [], s)) := by
  constructor
  · unfold patchAndValidateTaskDef
    rcases he : d.expires with _ | e <;>
      by_cases htg : d.taskGroupId = "" <;>
        simp only [htg, if_true, if_false, he] <;>
          split_ifs <;> simp_all
  · intro m hm
    simp [createTask, hm]

/-- Fixed reference time for the validation counterexamples. -/
def cexNow : Time := 10000000000

/-- A definition whose deadline equals `now`, not strictly in the
future. -/
def d7a : TaskDef :=
  { provisionerId := "p", workerType := "w", schedulerId := "s",
    created := cexNow, deadline := cexNow }

/-- A definition with `deadline - created = 5 days + 30 minutes`,
exceeding the claimed 5 days + 15 minutes bound. -/
def d7b : TaskDef :=
  { d7a with created := cexNow - driftMs,
             deadline := cexNow + fiveDaysMs + driftMs }

/-- A definition with `created > deadline` but all the claimed rules
satisfied. -/
def d7c : TaskDef :=
  { d7a with created := cexNow + 600000, deadline := cexNow + 300000 }

/-- Counterexample to C7 as stated: the code accepts a deadline equal
to `now` (not strictly in the future) and accepts `deadline - created
= 5 days + 30 min` (the 5-day horizon is measured from `now`), and it
rejects `created > deadline` which the claimed rules allow. -/
theorem createTask_validation_cex :
    patchAndValidateTaskDef "tid" d7a cexNow =
      .ok { d7a with taskGroupId := "tid",
                     expires := some (cexNow + oneYearMs) } ∧
    patchAndValidateTaskDef "tid" d7b cexNow =
      .ok { d7b with taskGroupId := "tid",
                     expires := some (cexNow + fiveDaysMs + driftMs + oneYearMs) } ∧
    patchAndValidateTaskDef "tid" d7c cexNow =
      .error "Deadline cannot be past created" := by
  refine ⟨rfl, rfl, rfl⟩

/-- Witness for C7 (amended) at concrete inputs: `d7c` is rejected and
`createTask` propagates the error; `d7a` is accepted, matching the
right-hand side being false. -/
theorem createTask_validation_spec_witness :
    createTask 10 "tid" d7c cexNow {} =
      (.err (.inputError "Deadline cannot be past created"), [], ({} : QState)) ∧
    ¬ (d7a.created < cexNow - driftMs ∨ d7a.created > cexNow + driftMs ∨
       d7a.created > d7a.deadline ∨ d7a.deadline < cexNow ∨
       d7a.deadline - cexNow > fiveDaysMs + driftMs ∨
       d7a.expires.getD (d7a.deadline + oneYearMs) < d7a.deadline) := by
  constructor
  · exact (createTask_validation_spec 10 "tid" d7c cexNow {}).2 _ rfl
  · intro hbad
    obtain ⟨m, hm⟩ := (createTask_validation_spec 10 "tid" d7a cexNow {}).1.mpr hbad
    rw [show patchAndValidateTaskDef "tid" d7a cexNow =
      .ok { d7a with taskGroupId := "tid", expires := some (cexNow + oneYearMs) }
      from rfl] at hm
    cases hm

/-! ### C9: scopes ending in `**` -/

/-- The timestamp validation only ever produces one of its five
message literals. -/
theorem patchAndValidate_error_msgs (taskId : String) (d : TaskDef) (now : Time)
    (m : String) (h : patchAndValidateTaskDef taskId d now = .error m) :
    m = "Created timestamp cannot be in the past (max 15min drift)" ∨
    m = "Created timestamp cannot be in the future (max 15min drift)" ∨
    m = "Deadline cannot be past created" ∨
    m = "Deadline cannot be in the past" ∨
    m = "Deadline cannot be more than 5 days into the future" ∨
    m = "Expires cannot be before the deadline" := by
  unfold patchAndValidateTaskDef at h
  rcases he : d.expires with _ | e <;>
    by_cases htg : d.taskGroupId = "" <;>
      simp only [htg, if_true, if_false, he] at h <;>
        split_ifs at h <;> simp_all

/-- `trackDependencies` only ever produces one error message. -/
theorem trackDependencies_error_msg (s : QState) (t : Task) (now : Time)
    (m : String) (h : trackDependencies s t now = .error m) :
    m = "dependencies requires existing tasks" := by
  unfold trackDependencies at h
  split at h
  · simp only [Except.error.injEq] at h
    exact h.symm
  · dsimp only at h
    split at h
    · split at h <;> cases h
    · cases h

/-- C9 (amended): `createTask` rejects with InputError any validated
definition containing a scope ending in `**`, but `defineTask` performs
no such check and never returns that error. -/
theorem scope_star_check (ext : Int) (taskId : String) (d : TaskDef)
    (now : Time) (s : QState) :
    (∀ d', patchAndValidateTaskDef taskId d now = .ok d' →
      d'.scopes.any (fun sc => endsWithStarStar sc) = true →
      createTask ext taskId d now s =
        (.err (.inputError "scopes must not end with **"), [], s)) ∧
    (defineTask ext taskId d now s).1 ≠
      .err (.inputError "scopes must not end with **") := by
  constructor
  · intro d' hp hsc
    simp [createTask, hp, hsc]
  · unfold defineTask defineTaskFinish defineTaskPublish
    split
    · next m hp =>
      rcases patchAndValidate_error_msgs _ _ _ _ hp with h | h | h | h | h | h <;>
        subst h <;> simp
    · next d1 hp =>
      split
      all_goals
        dsimp only
        split
        · simp
        · split
          · split
            · split
              · next m2 ht =>
                have hm2 := trackDependencies_error_msg _ _ _ _ ht
                subst hm2
                simp
              · split <;> simp
            · split <;> simp
          · split
            · simp
            · split
              · split
                · next m2 ht =>
                  have hm2 := trackDependencies_error_msg _ _ _ _ ht
                  subst hm2
                  simp
                · split <;> simp
              · split <;> simp

/-- A definition carrying a scope that ends in `**`. -/
def d9 : TaskDef :=
  { provisionerId := "p", workerType := "w", schedulerId := "s",
    created := cexNow, deadline := cexNow + 1000,
    scopes := ["queue:x", "foo**"] }

/-- The patched form of `d9` for taskId `t9` as `defineTask` stores it
(self-dependency added). -/
def d9p : TaskDef :=
  { d9 with taskGroupId := "t9", dependencies := ["t9"],
            expires := some (cexNow + 1000 + oneYearMs) }

/-- Counterexample to C9 as stated: `createTask` rejects the
`**`-ending scope with InputError, but `defineTask` on the same
definition succeeds (no scope check). -/
theorem defineTask_star_scope_cex :
    (createTask 10 "t9" d9 cexNow {}).1 =
      .err (.inputError "scopes must not end with **") ∧
    (defineTask 10 "t9" d9 cexNow {}).1 = .ok (freshTask "t9" d9p []).status := by
  refine ⟨by decide, by decide⟩

/-- Witness for C9 (amended) at a concrete input. -/
theorem scope_star_check_witness :
    createTask 10 "t9" d9 cexNow {} =
      (.err (.inputError "scopes must not end with **"), [], ({} : QState)) ∧
    (defineTask 10 "t9" d9 cexNow {}).1 ≠
      .err (.inputError "scopes must not end with **") := by
  have h := scope_star_check 10 "t9" d9 cexNow {}
  refine ⟨h.1 { d9 with
                taskGroupId := "t9",
                expires := some (cexNow + 1000 + oneYearMs) } rfl (by decide), h.2⟩

/-! ### Association list lemmas for the row store -/

/-- `find?` by key over a cons. -/
theorem find?_key_cons {α : Type} (k : String) (v : α) (rows : List (String × α))
    (id : String) :
    ((k, v) :: rows).find? (fun p => p.1 == id) =
      if k = id then some (k, v) else rows.find? (fun p => p.1 == id) := by
  by_cases h : k = id <;> simp [List.find?_cons, h]

/-- `find?` by key commutes with a key-preserving value update map. -/
theorem find?_map_update {α : Type} (rows : List (String × α)) (k : String) (v : α)
    (id : String) :
    (rows.map (fun p => if p.1 == k then (p.1, v) else p)).find?
        (fun p => p.1 == id) =
      (rows.find? (fun p => p.1 == id)).map
        (fun p => if p.1 == k then (p.1, v) else p) := by
  rw [List.find?_map]
  have hcomp : ((fun p => p.1 == id) ∘
      fun p : String × α => if p.1 == k then (p.1, v) else p) =
      fun p : String × α => p.1 == id := by
    funext p
    by_cases h : p.1 = k <;> simp [h]
  rw [hcomp]

/-- `lookupTask` after `insertTask`. -/
theorem lookupTask_insertTask (s : QState) (t : Task) (id : String) :
    lookupTask (insertTask s t) id =
      if t.taskId = id then some t else lookupTask s id := by
  unfold lookupTask insertTask
  dsimp only
  rw [find?_key_cons]
  by_cases h : t.taskId = id <;> simp [h]

/-- `lookupTask` after `updateTask`. -/
theorem lookupTask_updateTask (s : QState) (t : Task) (id : String) :
    lookupTask (updateTask s t) id =
      if t.taskId = id then (lookupTask s id).map (fun _ => t)
      else lookupTask s id := by
  unfold lookupTask updateTask
  dsimp only
  rw [find?_map_update]
  rcases hf : s.tasks.find? (fun p => p.1 == id) with _ | p
  · simp [hf]
  · have hp : p.1 = id := by
      have := List.find?_some hf
      simpa using this
    by_cases h : t.taskId = id
    · simp [h, hp, hf]
    · simp [h, hp, hf, Ne.symm h]

/-- `lookupGroup` after prepending a group row. -/
theorem lookupGroup_cons (s : QState) (k : String) (g : TaskGroupRow) (id : String) :
    lookupGroup { s with groups := (k, g) :: s.groups } id =
      if k = id then some g else lookupGroup s id := by
  unfold lookupGroup
  dsimp only
  rw [find?_key_cons]
  by_cases h : k = id <;> simp [h]

/-- `lookupGroup` after `updateGroup`. -/
theorem lookupGroup_updateGroup (s : QState) (k : String) (g : TaskGroupRow)
    (id : String) :
    lookupGroup (updateGroup s k g) id =
      if k = id then (lookupGroup s id).map (fun _ => g)
      else lookupGroup s id := by
  unfold lookupGroup updateGroup
  dsimp only
  rw [find?_map_update]
  rcases hf : s.groups.find? (fun p => p.1 == id) with _ | p
  · simp [hf]
  · have hp : p.1 = id := by
      have := List.find?_some hf
      simpa using this
    by_cases h : k = id
    · simp [h, hp, hf]
    · simp [h, hp, hf, Ne.symm h]

/-! ### C8: taskGroup schedulerId consistency -/

/-- With a pre-existing TaskGroup row under a different schedulerId,
`ensureTaskGroup` reports the conflict before writing anything. -/
theorem ensureTaskGroup_conflict (ext : Int) (taskId : String) (d : TaskDef)
    (s : QState) (g : TaskGroupRow)
    (hg : lookupGroup s d.taskGroupId = some g)
    (hne : g.schedulerId ≠ d.schedulerId) :
    ensureTaskGroup ext taskId d s = (false, s) := by
  simp [ensureTaskGroup, hg, hne]

/-- `lookupGroup` only reads the groups component. -/
theorem lookupGroup_congr {x y : QState} (h : x.groups = y.groups) (id : String) :
    lookupGroup x id = lookupGroup y id := by
  unfold lookupGroup
  rw [h]

/-- The member write changes only the members component. -/
theorem ensureMember_state (taskId gid : String) (exp : Time) (s : QState) :
    (ensureMember taskId gid exp s).tasks = s.tasks ∧
    (ensureMember taskId gid exp s).groups = s.groups ∧
    (ensureMember taskId gid exp s).edges = s.edges := by
  unfold ensureMember
  split <;> exact ⟨rfl, rfl, rfl⟩

/-- The activeSet write changes only the activeSet component. -/
theorem ensureActiveSet_state (taskId gid : String) (exp : Time) (s : QState) :
    (ensureActiveSet taskId gid exp s).2.tasks = s.tasks ∧
    (ensureActiveSet taskId gid exp s).2.groups = s.groups ∧
    (ensureActiveSet taskId gid exp s).2.edges = s.edges := by
  unfold ensureActiveSet
  split
  · exact ⟨rfl, rfl, rfl⟩
  · split <;> exact ⟨rfl, rfl, rfl⟩

/-- `ensureTaskGroup` never touches tasks or edges, preserves each
existing group's schedulerId, and on success the target group row
carries the definition's schedulerId. -/
theorem ensureTaskGroup_effects (ext : Int) (taskId : String) (d : TaskDef)
    (s : QState) :
    (ensureTaskGroup ext taskId d s).2.tasks = s.tasks ∧
    (ensureTaskGroup ext taskId d s).2.edges = s.edges ∧
    (∀ gid g0, lookupGroup s gid = some g0 →
      ∃ g1, lookupGroup (ensureTaskGroup ext taskId d s).2 gid = some g1 ∧
        g1.schedulerId = g0.schedulerId) ∧
    ((ensureTaskGroup ext taskId d s).1 = true →
      ∃ g1, lookupGroup (ensureTaskGroup ext taskId d s).2 d.taskGroupId = some g1 ∧
        g1.schedulerId = d.schedulerId) := by
  unfold ensureTaskGroup
  rcases hlg : lookupGroup s d.taskGroupId with _ | g
  · -- group absent: created with the definition schedulerId
    simp only [hlg]
    rw [if_neg (by simp)]
    set gnew : TaskGroupRow :=
      { schedulerId := d.schedulerId, expires := d.expires.getD 0 + ext * 1000 }
      with hgnew
    set s1 : QState := { s with groups := (d.taskGroupId, gnew) :: s.groups }
      with hs1
    set g' : TaskGroupRow :=
      if gnew.expires < d.expires.getD 0
      then { gnew with expires := d.expires.getD 0 + ext * 1000 } else gnew
      with hg'
    set s2 : QState := updateGroup s1 d.taskGroupId g' with hs2
    set s3 : QState := ensureMember taskId d.taskGroupId (d.expires.getD 0) s2
      with hs3
    have hg's : g'.schedulerId = d.schedulerId := by
      rw [hg']
      split <;> rfl
    have hm := ensureMember_state taskId d.taskGroupId (d.expires.getD 0) s2
    have ha := ensureActiveSet_state taskId d.taskGroupId (d.expires.getD 0) s3
    have htasks : (ensureActiveSet taskId d.taskGroupId (d.expires.getD 0) s3).2.tasks = s.tasks := by
      rw [ha.1, hm.1, hs2]
      rfl
    have hedges : (ensureActiveSet taskId d.taskGroupId (d.expires.getD 0) s3).2.edges = s.edges := by
      rw [ha.2.2, hm.2.2, hs2]
      rfl
    have hlook : ∀ gid, lookupGroup (ensureActiveSet taskId d.taskGroupId (d.expires.getD 0) s3).2 gid =
        if d.taskGroupId = gid then some g' else lookupGroup s gid := by
      intro gid
      rw [lookupGroup_congr ha.2.1 gid, lookupGroup_congr hm.2.1 gid, hs2,
        lookupGroup_updateGroup]
      by_cases h : d.taskGroupId = gid <;>
        simp [h, lookupGroup_cons, hs1, hlg]
    refine ⟨htasks, hedges, ?_, ?_⟩
    · intro gid g0 hg0
      refine ⟨g0, ?_, rfl⟩
      rw [hlook gid]
      have hne : d.taskGroupId ≠ gid := by
        intro hc
        rw [← hc] at hg0
        rw [hlg] at hg0
        cases hg0
      simp [hne, hg0]
    · intro _
      refine ⟨g', ?_, hg's⟩
      rw [hlook d.taskGroupId]
      simp
  · -- group present
    simp only [hlg]
    by_cases hsch : g.schedulerId = d.schedulerId
    · rw [if_neg (by simp [hsch])]
      set g' : TaskGroupRow :=
        if g.expires < d.expires.getD 0
        then { g with expires := d.expires.getD 0 + ext * 1000 } else g
        with hg'
      set s2 : QState := updateGroup s d.taskGroupId g' with hs2
      set s3 : QState := ensureMember taskId d.taskGroupId (d.expires.getD 0) s2
        with hs3
      have hg's : g'.schedulerId = g.schedulerId := by
        rw [hg']
        split <;> rfl
      have hm := ensureMember_state taskId d.taskGroupId (d.expires.getD 0) s2
      have ha := ensureActiveSet_state taskId d.taskGroupId (d.expires.getD 0) s3
      have htasks : (ensureActiveSet taskId d.taskGroupId (d.expires.getD 0) s3).2.tasks = s.tasks := by
        rw [ha.1, hm.1, hs2]
        rfl
      have hedges : (ensureActiveSet taskId d.taskGroupId (d.expires.getD 0) s3).2.edges = s.edges := by
        rw [ha.2.2, hm.2.2, hs2]
        rfl
      have hlook : ∀ gid, lookupGroup (ensureActiveSet taskId d.taskGroupId (d.expires.getD 0) s3).2 gid =
          if d.taskGroupId = gid then some g' else lookupGroup s gid := by
        intro gid
        rw [lookupGroup_congr ha.2.1 gid, lookupGroup_congr hm.2.1 gid, hs2,
          lookupGroup_updateGroup]
        by_cases h : d.taskGroupId = gid
        · subst h
          simp [hlg]
        · simp [h]
      refine ⟨htasks, hedges, ?_, ?_⟩
      · intro gid g0 hg0
        by_cases h : d.taskGroupId = gid
        · refine ⟨g', ?_, ?_⟩
          · rw [hlook gid]
            simp [h]
          · rw [← h] at hg0
            rw [hlg] at hg0
            cases hg0
            rw [hg's]
        · refine ⟨g0, ?_, rfl⟩
          rw [hlook gid]
          simp [h, hg0]
      · intro _
        refine ⟨g', ?_, by rw [hg's, hsch]⟩
        rw [hlook d.taskGroupId]
        simp
    · rw [if_pos (by simp [hsch])]
      refine ⟨rfl, rfl, ?_, ?_⟩
      · intro gid g0 hg0
        exact ⟨g0, hg0, rfl⟩
      · intro h
        cases h

/-- `lookupTask` only reads the tasks component. -/
theorem lookupTask_congr {x y : QState} (h : x.tasks = y.tasks) (id : String) :
    lookupTask x id = lookupTask y id := by
  unfold lookupTask
  rw [h]

/-- `scheduleTask` only appends a run; identity and group fields are
untouched. -/
theorem scheduleMutator_fields (now : Time) (t : Task) :
    (scheduleMutator now t).taskId = t.taskId ∧
    (scheduleMutator now t).taskGroupId = t.taskGroupId ∧
    (scheduleMutator now t).schedulerId = t.schedulerId := by
  unfold scheduleMutator
  split <;> exact ⟨rfl, rfl, rfl⟩

/-- `trackDependencies` leaves groups unchanged, preserves the task's
identity and group fields, and only ever rewrites the tracked task's
row. -/
theorem trackDependencies_effects (s : QState) (t : Task) (now : Time)
    (s' : QState) (t' : Task) (evs : List Event)
    (h : trackDependencies s t now = .ok (s', t', evs)) :
    s'.groups = s.groups ∧
    t'.taskId = t.taskId ∧ t'.taskGroupId = t.taskGroupId ∧
    t'.schedulerId = t.schedulerId ∧
    (∀ id t2, lookupTask s' id = some t2 → t2 = t' ∨ lookupTask s id = some t2) := by
  have hwg : (writeEdges s t).groups = s.groups := rfl
  have hwt : (writeEdges s t).tasks = s.tasks := rfl
  unfold trackDependencies at h
  split at h
  · cases h
  · dsimp only at h
    split at h
    · rcases hsm : scheduleTaskModel (writeEdges s t) t now with _ | ⟨sX, tX, evX⟩
      · rw [hsm] at h
        simp only [Except.ok.injEq, Prod.mk.injEq] at h
        obtain ⟨h1, h2, h3⟩ := h
        subst h1 h2
        refine ⟨hwg, rfl, rfl, rfl, ?_⟩
        intro id t2 hl
        exact Or.inr (by rwa [lookupTask_congr hwt id] at hl)
      · rw [hsm] at h
        simp only [Except.ok.injEq, Prod.mk.injEq] at h
        obtain ⟨h1, h2, h3⟩ := h
        subst h1 h2
        unfold scheduleTaskModel at hsm
        split at hsm
        · cases hsm
        · simp only [Option.some.injEq, Prod.mk.injEq] at hsm
          obtain ⟨hs1, hs2, hs3⟩ := hsm
          subst hs1 hs2
          have hfields := scheduleMutator_fields now t
          refine ⟨?_, hfields.1, hfields.2.1, hfields.2.2, ?_⟩
          · rw [show (updateTask (writeEdges s t) (scheduleMutator now t)).groups =
              (writeEdges s t).groups from rfl, hwg]
          · intro id t2 hl
            rw [lookupTask_updateTask] at hl
            by_cases hid : (scheduleMutator now t).taskId = id
            · rw [if_pos hid] at hl
              rcases ho : lookupTask (writeEdges s t) id with _ | t3
              · rw [ho] at hl
                cases hl
              · rw [ho] at hl
                cases hl
                exact Or.inl rfl
            · rw [if_neg hid] at hl
              exact Or.inr (by rwa [lookupTask_congr hwt id] at hl)
    · simp only [Except.ok.injEq, Prod.mk.injEq] at h
      obtain ⟨h1, h2, h3⟩ := h
      subst h1 h2
      refine ⟨hwg, rfl, rfl, rfl, ?_⟩
      intro id t2 hl
      exact Or.inr (by rwa [lookupTask_congr hwt id] at hl)

/-- All tasks agree with their TaskGroup row's schedulerId. -/
def GroupConsistent (s : QState) : Prop :=
  ∀ id t, lookupTask s id = some t →
    ∃ g, lookupGroup s t.taskGroupId = some g ∧ g.schedulerId = t.schedulerId

/-- The publish tail returns the state it was given. -/
theorem createTaskPublish_state (s : QState) (t : Task) (evs : List Event) :
    (createTaskPublish s t evs).2.2 = s := by
  unfold createTaskPublish
  split <;> rfl

/-- `createTaskFinish` preserves group consistency, given that the
task it finishes is stored. -/
theorem createTaskFinish_gc (s : QState) (t : Task) (now : Time) (evs : List Event)
    (hgc : GroupConsistent s)
    (hself : ∃ key, lookupTask s key = some t) :
    GroupConsistent (createTaskFinish s t now evs).2.2 := by
  unfold createTaskFinish
  split
  · rcases ht : trackDependencies s t now with m | ⟨s', t', evT⟩
    · exact hgc
    · rw [createTaskPublish_state]
      obtain ⟨hgr, hid, hgid, hsch, hlk⟩ :=
        trackDependencies_effects s t now s' t' evT ht
      intro id t2 hl
      rcases hlk id t2 hl with h2 | h2
      · subst h2
        obtain ⟨key, hkey⟩ := hself
        obtain ⟨g, hg, hgs⟩ := hgc key t hkey
        refine ⟨g, ?_, by rw [hsch, hgs]⟩
        rw [lookupGroup_congr hgr, hgid]
        exact hg
      · obtain ⟨g, hg, hgs⟩ := hgc id t2 h2
        exact ⟨g, by rw [lookupGroup_congr hgr]; exact hg, hgs⟩
  · rw [createTaskPublish_state]
    exact hgc

/-- Group consistency carries through `ensureTaskGroup`. -/
theorem ensureTaskGroup_gc (ext : Int) (taskId : String) (d : TaskDef)
    (s : QState) (b : Bool) (s1 : QState)
    (heq : ensureTaskGroup ext taskId d s = (b, s1))
    (hgc : GroupConsistent s) : GroupConsistent s1 := by
  obtain ⟨ht, _, hpres, _⟩ := ensureTaskGroup_effects ext taskId d s
  rw [heq] at ht hpres
  intro id t2 hl
  have hl' : lookupTask s id = some t2 := by
    rwa [lookupTask_congr ht id] at hl
  obtain ⟨g0, hg0, hgs0⟩ := hgc id t2 hl'
  obtain ⟨g1, hg1, hgs1⟩ := hpres t2.taskGroupId g0 hg0
  exact ⟨g1, hg1, by rw [hgs1, hgs0]⟩

set_option maxHeartbeats 1000000 in
/-- C8: a `createTask` into a task group created with a different
schedulerId returns RequestConflict, leaving the whole row store (in
particular the TaskGroup row) unmodified and emitting nothing; and
`createTask` preserves the invariant that every task's schedulerId
matches its group's. -/
theorem createTask_group_scheduler_conflict
    (ext : Int) (taskId : String) (d d' : TaskDef) (now : Time) (s : QState)
    (g : TaskGroupRow)
    (hp : patchAndValidateTaskDef taskId d now = .ok d')
    (hsc : d'.scopes.any (fun sc => endsWithStarStar sc) = false)
    (hg : lookupGroup s d'.taskGroupId = some g)
    (hne : g.schedulerId ≠ d'.schedulerId) :
    createTask ext taskId d now s = (.err .requestConflict, [], s) ∧
    ∀ (e : Int) (tid : String) (d0 : TaskDef) (n : Time) (s0 : QState),
      GroupConsistent s0 → GroupConsistent (createTask e tid d0 n s0).2.2 := by
  constructor
  · have hens := ensureTaskGroup_conflict ext taskId d' s g hg hne
    simp [createTask, hp, hsc, hens]
  · intro e tid d0 n s0 hgc
    unfold createTask
    split
    · exact hgc
    · next d1 hp1 =>
      split
      · exact hgc
      · rcases hens : ensureTaskGroup e tid d1 s0 with ⟨b, s1⟩
        have hgc1 : GroupConsistent s1 := ensureTaskGroup_gc e tid d1 s0 b s1 hens hgc
        rcases b with _ | _
        · exact hgc1
        · dsimp only
          cases hl : lookupTask s1 tid with
          | none =>
            -- fresh task
            dsimp only
            have hok := (ensureTaskGroup_effects e tid d1 s0).2.2.2
            rw [hens] at hok
            obtain ⟨g1, hg1, hgs1⟩ := hok rfl
            set t : Task := freshTask tid d1
              (if d1.dependencies.length = 0 then [pendingRun .scheduled n] else [])
              with hT
            have hgc2 : GroupConsistent (insertTask s1 t) := by
              intro id t2 hl2
              rw [lookupTask_insertTask] at hl2
              by_cases hid : t.taskId = id
              · rw [if_pos hid] at hl2
                cases hl2
                refine ⟨g1, ?_, hgs1⟩
                rw [lookupGroup_congr (x := insertTask s1 t) (y := s1) rfl]
                exact hg1
              · rw [if_neg hid] at hl2
                obtain ⟨g2, hg2, hgs2⟩ := hgc1 id t2 hl2
                exact ⟨g2, by
                  rw [lookupGroup_congr (x := insertTask s1 t) (y := s1) rfl]
                  exact hg2, hgs2⟩
            have hself : lookupTask (insertTask s1 t) t.taskId = some t := by
              rw [lookupTask_insertTask]
              simp
            exact createTaskFinish_gc (insertTask s1 t) t n _ hgc2 ⟨t.taskId, hself⟩
          | some t0 =>
            dsimp only
            split
            · exact hgc1
            · exact createTaskFinish_gc s1 t0 n _ hgc1 ⟨tid, hl⟩

/-- A state holding a task group `G` owned by schedulerId `s1`. -/
def s8 : QState :=
  { groups := [("G", { schedulerId := "s1", expires := 0 })] }

/-- A valid definition targeting group `G` with schedulerId `s2`. -/
def d8 : TaskDef :=
  { provisionerId := "p", workerType := "w", schedulerId := "s2",
    taskGroupId := "G", created := cexNow, deadline := cexNow + 1000 }

/-- Witness for C8 at a concrete input: the mismatched schedulerId is
rejected and the store (including the group row) is untouched. -/
theorem createTask_group_scheduler_conflict_witness :
    createTask 10 "t8" d8 cexNow s8 = (.err .requestConflict, [], s8) := by
  have h := createTask_group_scheduler_conflict 10 "t8" d8
    { d8 with expires := some (cexNow + 1000 + oneYearMs) } cexNow s8
    { schedulerId := "s1", expires := 0 } rfl (by decide) (by decide) (by decide)
  exact h.1

/-! ### C5: task invariants across operations -/

/-- The invariants claimed in the spec: `retriesLeft ≤ retries` (with
`retriesLeft : Nat`, so `0 ≤ retriesLeft` is implicit) and at most
`MAX_RUNS_ALLOWED` runs. -/
def ClaimedInv (t : Task) : Prop :=
  t.retriesLeft ≤ t.retries ∧ t.runs.length ≤ MAX_RUNS_ALLOWED

/-- The auxiliary invariant actually maintained by the code: `retries`
is bounded by 49 (the input schema's maximum) and `retriesLeft`
reserves room for future retry runs. -/
def AuxInv (t : Task) : Prop :=
  t.retries ≤ 49 ∧ t.retriesLeft + t.runs.length ≤ MAX_RUNS_ALLOWED

/-- Run-sequence preservation: indexes are stable and terminal runs
are never mutated. -/
def RunsPreserve (l l' : List Run) : Prop :=
  l.length ≤ l'.length ∧
  ∀ (i : Nat) (r : Run), l[i]? = some r → r.state.isTerminal → l'[i]? = some r

/-- `runs` is append-only from `t` to `t'`. -/
def AppendOnly (t t' : Task) : Prop :=
  RunsPreserve t.runs t'.runs

theorem runsPreserve_refl (l : List Run) : RunsPreserve l l :=
  ⟨le_refl _, fun _ _ hi _ => hi⟩

/-- Overwriting a non-terminal run in place preserves terminal runs. -/
theorem runsPreserve_set (l : List Run) (i : Nat) (r r' : Run)
    (hi : l[i]? = some r) (hnt : r.state.isTerminal = false) :
    RunsPreserve l (l.set i r') := by
  refine ⟨by simp, ?_⟩
  intro j rj hj ht
  have hne : i ≠ j := by
    intro hc
    subst hc
    rw [hi] at hj
    cases hj
    rw [ht] at hnt
    cases hnt
  rw [List.getElem?_set, if_neg hne]
  exact hj

/-- Appending runs preserves all existing runs. -/
theorem runsPreserve_append (l l' : List Run) : RunsPreserve l (l ++ l') := by
  refine ⟨by simp, ?_⟩
  intro i r hi _
  rw [List.getElem?_append_left (List.getElem?_eq_some.mp hi).1]
  exact hi

theorem runsPreserve_trans {l1 l2 l3 : List Run}
    (h1 : RunsPreserve l1 l2) (h2 : RunsPreserve l2 l3) : RunsPreserve l1 l3 :=
  ⟨le_trans h1.1 h2.1, fun i r hi ht => h2.2 i r (h1.2 i r hi ht) ht⟩

/-- One state-changing operation on a single task: the mutators of the
API handlers in api.js, plus the spec-modelled schedule, claim and
resolver transitions. -/
inductive Step : Task → Task → Prop
  | schedule (now : Time) (t : Task) : Step t (scheduleMutator now t)
  | claim (runId : Nat) (wg wi : String) (now tu : Time) (t : Task) :
      Step t (claimMutator runId wg wi now tu t)
  | cancel (now : Time) (t : Task) : Step t (cancelMutator now t)
  | rerun (now : Time) (t : Task) : Step t (rerunMutator now t)
  | reclaim (runId : Nat) (tu : Time) (t : Task) :
      Step t (reclaimMutator runId tu t).1
  | resolve (runId : Nat) (target : RunState) (now : Time) (t : Task) :
      Step t (resolveMutator runId target now t)
  | reportExc (runId : Nat) (reason : Reason) (now : Time) (t : Task) :
      Step t (reportExceptionMutator runId reason now t)
  | claimExpired (runId : Nat) (msgTU now : Time) (t : Task) :
      Step t (claimExpiredMutator runId msgTU now t)
  | deadlineExpired (msgDL now : Time) (t : Task) :
      Step t (deadlineExpiredMutator msgDL now t)

/-- A list whose last element is absent is empty. -/
theorem last_none_nil (l : List Run) (h : l[l.length - 1]? = none) : l = [] := by
  have := List.getElem?_eq_none_iff.mp h
  have h0 : l.length = 0 := by omega
  exact List.length_eq_zero.mp h0

/-- C5 (amended): every single-task operation — scheduling, claiming,
cancelling, rerunning, reclaiming, resolving, exception reporting, and
the claim-expiration and deadline resolvers — preserves
`0 ≤ retriesLeft ≤ retries`, `retries` itself, the append-only
discipline on runs, and `len(runs) ≤ 50` under the auxiliary invariant
`retries ≤ 49 ∧ retriesLeft + len(runs) ≤ 50`, which is itself
preserved; and task creation establishes all of it provided the
definition's `retries ≤ 49` (the input schema bound). -/
theorem task_invariants :
    (∀ t t', Step t t' → ClaimedInv t → AuxInv t →
      ClaimedInv t' ∧ AuxInv t' ∧ AppendOnly t t' ∧ t'.retries = t.retries) ∧
    (∀ (taskId : String) (d : TaskDef) (runs : List Run) (now : Time),
      (runs = [] ∨ runs = [pendingRun .scheduled now]) → d.retries ≤ 49 →
      ClaimedInv (freshTask taskId d runs) ∧ AuxInv (freshTask taskId d runs)) := by
  constructor
  · intro t t' h hc ha
    obtain ⟨hcr, hcl⟩ := hc
    obtain ⟨har, hal⟩ := ha
    rw [MAX_RUNS_ALLOWED] at hcl hal
    have hkeep : ClaimedInv t ∧ AuxInv t ∧ AppendOnly t t ∧ t.retries = t.retries := by
      exact ⟨⟨hcr, by rw [MAX_RUNS_ALLOWED]; omega⟩,
        ⟨har, by rw [MAX_RUNS_ALLOWED]; omega⟩, runsPreserve_refl _, rfl⟩
    cases h with
    | schedule now t =>
      unfold scheduleMutator
      split
      · next hruns =>
        have hnil : t.runs = [] := List.length_eq_zero.mp hruns
        refine ⟨⟨hcr, by simp [MAX_RUNS_ALLOWED]⟩,
          ⟨har, by simp [MAX_RUNS_ALLOWED]; omega⟩, ⟨by simp [hruns], ?_⟩, rfl⟩
        intro i r hi _
        rw [hnil] at hi
        cases hi
      · exact hkeep
    | claim runId wg wi now tu t =>
      unfold claimMutator
      split
      · exact hkeep
      · next run hrun =>
        split
        · exact hkeep
        · next hpend =>
          have hp : run.state = .pending := by
            by_contra hcon
            exact hpend hcon
          refine ⟨⟨hcr, by simp [MAX_RUNS_ALLOWED]; omega⟩,
            ⟨har, by simp [MAX_RUNS_ALLOWED]; omega⟩, ?_, rfl⟩
          exact runsPreserve_set t.runs runId run _ hrun (by rw [hp]; rfl)
    | cancel now t =>
      unfold cancelMutator
      split
      · next r hrun =>
        split
        · next hact =>
          refine ⟨⟨hcr, by simp [MAX_RUNS_ALLOWED]; omega⟩,
            ⟨har, by simp [MAX_RUNS_ALLOWED]; omega⟩, ?_, rfl⟩
          refine runsPreserve_set t.runs (t.runs.length - 1) r _ hrun ?_
          rcases hact with h1 | h1 <;> rw [h1] <;> rfl
        · exact hkeep
      · next hrun =>
        have hnil := last_none_nil t.runs hrun
        refine ⟨⟨hcr, by simp [MAX_RUNS_ALLOWED]⟩,
          ⟨har, by simp [MAX_RUNS_ALLOWED]; omega⟩, ⟨by simp [hnil], ?_⟩, rfl⟩
        intro i r2 hi _
        rw [hnil] at hi
        cases hi
    | rerun now t =>
      unfold rerunMutator
      dsimp only
      split
      · exact hkeep
      · split
        · exact hkeep
        · next hlt =>
          rw [MAX_RUNS_ALLOWED] at hlt
          push_neg at hlt
          refine ⟨⟨by exact min_le_left _ _, by simp [MAX_RUNS_ALLOWED]; omega⟩,
            ⟨har, ?_⟩, runsPreserve_append _ _, rfl⟩
          have hmin : min t.retries (MAX_RUNS_ALLOWED - (t.runs ++ [pendingRun .rerun now]).length) ≤
              MAX_RUNS_ALLOWED - (t.runs ++ [pendingRun .rerun now]).length :=
            min_le_right _ _
          simp [MAX_RUNS_ALLOWED] at hmin ⊢
          omega
    | reclaim runId tu t =>
      unfold reclaimMutator
      split
      · exact hkeep
      · next run hrun =>
        split
        · exact hkeep
        · next hguard =>
          push_neg at hguard
          have hset := runsPreserve_set t.runs runId run
            { run with takenUntil := some tu } hrun (by rw [hguard.2]; rfl)
          dsimp only
          split
          · exact hkeep
          · exact ⟨⟨hcr, by simp [MAX_RUNS_ALLOWED]; omega⟩,
              ⟨har, by simp [MAX_RUNS_ALLOWED]; omega⟩, hset, rfl⟩
    | resolve runId target now t =>
      unfold resolveMutator
      split
      · exact hkeep
      · next run hrun =>
        split
        · exact hkeep
        · next hguard =>
          push_neg at hguard
          refine ⟨⟨hcr, by simp [MAX_RUNS_ALLOWED]; omega⟩,
            ⟨har, by simp [MAX_RUNS_ALLOWED]; omega⟩, ?_, rfl⟩
          exact runsPreserve_set t.runs runId run _ hrun (by rw [hguard.2]; rfl)
    | reportExc runId reason now t =>
      unfold reportExceptionMutator
      split
      · exact hkeep
      · next run hrun =>
        split
        · exact hkeep
        · next hguard =>
          push_neg at hguard
          have hlt := (List.getElem?_eq_some.mp hrun).1
          have hnt : run.state.isTerminal = false := by rw [hguard.2]; rfl
          have hps := runsPreserve_set t.runs runId run
            { run with state := .exception, reasonResolved := some reason,
                       resolved := some now } hrun hnt
          dsimp only
          rcases Nat.eq_zero_or_pos t.retriesLeft with hz | hpos
          · have hc1 : ¬(reason = Reason.workerShutdown ∧ t.retriesLeft > 0) := by
              simp [hz]
            rw [if_neg hc1]
            dsimp only
            have hc2 : ¬(reason = Reason.intermittentTask ∧ t.retriesLeft > 0) := by
              simp [hz]
            rw [if_neg hc2]
            exact ⟨⟨hcr, by simp [MAX_RUNS_ALLOWED]; omega⟩,
              ⟨har, by simp [MAX_RUNS_ALLOWED]; omega⟩, hps, rfl⟩
          · by_cases hws : reason = .workerShutdown
            · subst hws
              have hc1 : (Reason.workerShutdown = Reason.workerShutdown ∧
                  t.retriesLeft > 0) := ⟨rfl, hpos⟩
              rw [if_pos hc1]
              dsimp only
              have hc2 : ¬(Reason.workerShutdown = Reason.intermittentTask ∧
                  t.retriesLeft - 1 > 0) := by simp
              rw [if_neg hc2]
              refine ⟨⟨by simp; omega, by simp [MAX_RUNS_ALLOWED]; omega⟩,
                ⟨har, by simp [MAX_RUNS_ALLOWED]; omega⟩, ?_, rfl⟩
              exact runsPreserve_trans hps (runsPreserve_append _ _)
            · by_cases hit : reason = .intermittentTask
              · subst hit
                have hc1 : ¬(Reason.intermittentTask = Reason.workerShutdown ∧
                    t.retriesLeft > 0) := by simp
                rw [if_neg hc1]
                dsimp only
                have hc2 : (Reason.intermittentTask = Reason.intermittentTask ∧
                    t.retriesLeft > 0) := ⟨rfl, hpos⟩
                rw [if_pos hc2]
                refine ⟨⟨by simp; omega, by simp [MAX_RUNS_ALLOWED]; omega⟩,
                  ⟨har, by simp [MAX_RUNS_ALLOWED]; omega⟩, ?_, rfl⟩
                exact runsPreserve_trans hps (runsPreserve_append _ _)
              · have hc1 : ¬(reason = Reason.workerShutdown ∧ t.retriesLeft > 0) := by
                  simp [hws]
                rw [if_neg hc1]
                dsimp only
                have hc2 : ¬(reason = Reason.intermittentTask ∧ t.retriesLeft > 0) := by
                  simp [hit]
                rw [if_neg hc2]
                exact ⟨⟨hcr, by simp [MAX_RUNS_ALLOWED]; omega⟩,
                  ⟨har, by simp [MAX_RUNS_ALLOWED]; omega⟩, hps, rfl⟩
    | claimExpired runId msgTU now t =>
      unfold claimExpiredMutator
      split
      · exact hkeep
      · next run hrun =>
        split
        · next hmatch =>
          have hnt : run.state.isTerminal = false := by rw [hmatch.1]; rfl
          have hps := runsPreserve_set t.runs runId run
            { run with state := .exception, reasonResolved := some .claimExpired,
                       resolved := some now } hrun hnt
          dsimp only
          split
          · refine ⟨⟨by simp; omega, by simp [MAX_RUNS_ALLOWED]; omega⟩,
              ⟨har, by simp [MAX_RUNS_ALLOWED]; omega⟩, ?_, rfl⟩
            exact runsPreserve_trans hps (runsPreserve_append _ _)
          · exact ⟨⟨hcr, by simp [MAX_RUNS_ALLOWED]; omega⟩,
              ⟨har, by simp [MAX_RUNS_ALLOWED]; omega⟩, hps, rfl⟩
        · exact hkeep
    | deadlineExpired msgDL now t =>
      unfold deadlineExpiredMutator
      split
      · exact hkeep
      · split
        · next hrun =>
          have hnil := last_none_nil t.runs hrun
          refine ⟨⟨hcr, by simp [MAX_RUNS_ALLOWED]⟩,
            ⟨har, by simp [MAX_RUNS_ALLOWED]; omega⟩, ⟨by simp [hnil], ?_⟩, rfl⟩
          intro i r2 hi _
          rw [hnil] at hi
          cases hi
        · next r hrun =>
          split
          · next hact =>
            refine ⟨⟨hcr, by simp [MAX_RUNS_ALLOWED]; omega⟩,
              ⟨har, by simp [MAX_RUNS_ALLOWED]; omega⟩, ?_, rfl⟩
            refine runsPreserve_set t.runs (t.runs.length - 1) r _ hrun ?_
            rcases hact with h1 | h1 <;> rw [h1] <;> rfl
          · exact hkeep
  · intro taskId d runs now hruns hretries
    rcases hruns with h | h <;> subst h <;>
      exact ⟨⟨le_refl _, by simp [MAX_RUNS_ALLOWED, freshTask]⟩,
        ⟨hretries, by simp [MAX_RUNS_ALLOWED, freshTask]; omega⟩⟩

/-- A resolved (terminal) run. -/
def doneRun : Run :=
  { state := .completed, reasonCreated := .scheduled,
    reasonResolved := some .completed }

/-- A task at the run limit: 49 resolved runs plus a running last run,
with one retry left.  It satisfies the claimed invariants. -/
def fullTask : Task :=
  { baseTask with
    retries := 49
    retriesLeft := 1
    runs := List.replicate 49 doneRun ++ [runningRun] }

/-- Counterexample to C5 as stated: from a state satisfying the
claimed invariants (`retriesLeft ≤ retries`, 50 runs), a
worker-shutdown `reportException` pushes a 51st run — the operation
does not preserve `len(runs) ≤ 50` without the auxiliary invariant
`retriesLeft + len(runs) ≤ 50`. -/
theorem reportException_run_overflow_cex :
    (fullTask.retriesLeft ≤ fullTask.retries ∧
     fullTask.runs.length ≤ MAX_RUNS_ALLOWED) ∧
    (reportExceptionMutator 49 .workerShutdown 5 fullTask).runs.length = 51 ∧
    ¬ (reportExceptionMutator 49 .workerShutdown 5 fullTask).runs.length ≤
        MAX_RUNS_ALLOWED := by
  refine ⟨⟨by decide, by decide⟩, by decide, by decide⟩

/-- Witness for C5 (amended) at concrete inputs: canceling the pending
run of `pendTask` preserves all invariants, and a fresh creation with
`retries = 5 ≤ 49` establishes them. -/
theorem task_invariants_witness :
    (ClaimedInv (cancelMutator 7 pendTask) ∧ AuxInv (cancelMutator 7 pendTask) ∧
     AppendOnly pendTask (cancelMutator 7 pendTask) ∧
     (cancelMutator 7 pendTask).retries = pendTask.retries) ∧
    (ClaimedInv (freshTask "tw" d8 []) ∧ AuxInv (freshTask "tw" d8 [])) := by
  refine ⟨task_invariants.1 pendTask _ (Step.cancel 7 pendTask)
    ⟨by decide, by decide⟩ ⟨by decide, by decide⟩,
    task_invariants.2 "tw" d8 [] 0 (Or.inl rfl) (by decide)⟩

/-! ### C2: createTask idempotency -/

/-- A validated definition always carries an explicit `expires` and a
deadline that has not passed. -/
theorem patchAndValidate_facts (taskId : String) (d0 d : TaskDef)
    (now : Time) (h : patchAndValidateTaskDef taskId d0 now = .ok d) :
    (∃ e, d.expires = some e) ∧ ¬ d.deadline < now := by
  unfold patchAndValidateTaskDef at h
  rcases he : d0.expires with _ | e <;>
    by_cases htg : d0.taskGroupId = "" <;>
      simp only [htg, if_true, if_false, he] at h <;>
        split_ifs at h <;>
          first
            | (injection h with hh
               subst hh
               exact ⟨⟨_, rfl⟩, by assumption⟩)
            | (injection h with hh
               subst hh
               exact ⟨⟨e, he⟩, by assumption⟩)

/-- The fresh Task row built from a patched definition reproduces that
definition. -/
theorem freshTask_definition (taskId : String) (d : TaskDef) (runs : List Run)
    (e : Time) (he : d.expires = some e) :
    (freshTask taskId d runs).definition = d := by
  rcases d with ⟨p, w, sch, tg, deps, req, ro, pr, re, cr, dl, ex, sc, pa, me, ta, xx⟩
  have he2 : ex = some e := he
  subst he2
  rfl

/-- `scheduleTask` only appends a run; the stored definition is
untouched. -/
theorem scheduleMutator_definition (now : Time) (t : Task) :
    (scheduleMutator now t).definition = t.definition := by
  unfold scheduleMutator
  split <;> rfl

/-- `depSatisfied` only reads the tasks component. -/
theorem depSatisfied_congr {x y : QState} (h : x.tasks = y.tasks)
    (requiresMode reqId : String) :
    depSatisfied x requiresMode reqId = depSatisfied y requiresMode reqId := by
  unfold depSatisfied
  rw [lookupTask_congr h]

/-- The derived state is `unscheduled` exactly when there are no
runs. -/
theorem state_unscheduled_iff (t : Task) :
    t.state = "unscheduled" ↔ t.runs = [] := by
  unfold Task.state
  constructor
  · intro h
    rcases hr : t.runs[t.runs.length - 1]? with _ | r
    · exact last_none_nil t.runs hr
    · rw [hr] at h
      exfalso
      cases hs : r.state <;> simp [RunState.name, hs] at h
  · intro h
    rw [h]
    rfl

/-- The publish tail replies with the finished task's status and never
drops the events accumulated so far. -/
theorem createTaskPublish_parts (s : QState) (t : Task) (evs : List Event) :
    (createTaskPublish s t evs).1 = .ok t.status ∧
    (evs ≠ [] → (createTaskPublish s t evs).2.1 ≠ []) := by
  unfold createTaskPublish
  split <;> exact ⟨rfl, fun hne => by simp [hne]⟩

/-- The member write does not touch the activeSet component. -/
theorem ensureMember_activeSet (taskId gid : String) (exp : Time) (s : QState) :
    (ensureMember taskId gid exp s).activeSet = s.activeSet := by
  unfold ensureMember
  split <;> rfl

/-- A freshly prepended activeSet row is found by its own keys. -/
theorem findMember_cons_self (gid tid : String) (exp : Time)
    (rows : List MemberRow) :
    findMember ({ taskGroupId := gid, taskId := tid, expires := exp } :: rows)
        gid tid =
      some { taskGroupId := gid, taskId := tid, expires := exp } := by
  simp [findMember, List.find?_cons]

/-- After a successful activeSet write, the row is present with the
written expiry. -/
theorem ensureActiveSet_post (taskId gid : String) (exp : Time) (s : QState)
    (s2 : QState) (h : ensureActiveSet taskId gid exp s = (true, s2)) :
    ∃ row, findMember s2.activeSet gid taskId = some row ∧ row.expires = exp := by
  unfold ensureActiveSet at h
  rcases hf : findMember s.activeSet gid taskId with _ | row
  · simp only [hf, Prod.mk.injEq, true_and] at h
    subst h
    exact ⟨_, findMember_cons_self _ _ _ _, rfl⟩
  · simp only [hf] at h
    split at h
    · simp at h
    · next hexp =>
      simp only [Prod.mk.injEq, true_and] at h
      subst h
      exact ⟨row, hf, not_not.mp hexp⟩

/-- An activeSet row already present with the right expiry makes the
write a successful no-op. -/
theorem ensureActiveSet_found (taskId gid : String) (exp : Time) (s : QState)
    (row : MemberRow)
    (hf : findMember s.activeSet gid taskId = some row)
    (hexp : row.expires = exp) :
    ensureActiveSet taskId gid exp s = (true, s) := by
  unfold ensureActiveSet
  simp only [hf]
  rw [if_neg (by simp [hexp])]

/-- After a successful `ensureTaskGroup`, the activeSet row for the
task is present with the definition's expiry. -/
theorem ensureTaskGroup_activeSet (ext : Int) (taskId : String) (d : TaskDef)
    (s sE : QState) (h : ensureTaskGroup ext taskId d s = (true, sE)) :
    ∃ row, findMember sE.activeSet d.taskGroupId taskId = some row ∧
      row.expires = d.expires.getD 0 := by
  unfold ensureTaskGroup at h
  rcases hlg : lookupGroup s d.taskGroupId with _ | g
  · simp only [hlg] at h
    rw [if_neg (by simp)] at h
    exact ensureActiveSet_post _ _ _ _ _ h
  · simp only [hlg] at h
    by_cases hsch : g.schedulerId = d.schedulerId
    · rw [if_neg (by simp [hsch])] at h
      exact ensureActiveSet_post _ _ _ _ _ h
    · rw [if_pos (by simp [hsch])] at h
      simp at h

/-- A second `ensureTaskGroup` against rows left by a successful first
one succeeds again. -/
theorem ensureTaskGroup_second (ext : Int) (taskId : String) (d : TaskDef)
    (s : QState) (g : TaskGroupRow) (row : MemberRow)
    (hg : lookupGroup s d.taskGroupId = some g)
    (hsch : g.schedulerId = d.schedulerId)
    (hrow : findMember s.activeSet d.taskGroupId taskId = some row)
    (hexp : row.expires = d.expires.getD 0) :
    (ensureTaskGroup ext taskId d s).1 = true := by
  unfold ensureTaskGroup
  simp only [hg]
  rw [if_neg (by simp [hsch])]
  have hf2 : ∀ x : QState, x.activeSet = s.activeSet →
      ensureActiveSet taskId d.taskGroupId (d.expires.getD 0) x = (true, x) := by
    intro x hx
    refine ensureActiveSet_found _ _ _ _ row ?_ hexp
    rw [hx]
    exact hrow
  rw [hf2 _ (by rw [ensureMember_activeSet]; rfl)]

/-- Full case analysis of a successful `trackDependencies`: all
dependencies exist, the group/member rows are untouched, and either
nothing is scheduled (dependencies unsatisfied, or the past-deadline
sentinel) or a pending run is appended through `scheduleTask`. -/
theorem trackDependencies_cases (s : QState) (t : Task) (now : Time)
    (s' : QState) (t' : Task) (evs : List Event)
    (h : trackDependencies s t now = .ok (s', t', evs)) :
    (t.dependencies.any (fun dep => (lookupTask s dep).isNone)) = false ∧
    s'.groups = s.groups ∧ s'.members = s.members ∧ s'.activeSet = s.activeSet ∧
    ((t' = t ∧ s'.tasks = s.tasks ∧
        ((t.dependencies.all (fun dep =>
            depSatisfied (writeEdges s t) t.requires dep)) = false ∨
          t.deadline < now)) ∨
     (t' = scheduleMutator now t ∧ ¬ t.deadline < now ∧
        s' = updateTask (writeEdges s t) t')) := by
  unfold trackDependencies at h
  split at h
  · cases h
  · next hmiss =>
    refine ⟨by simpa using hmiss, ?_⟩
    dsimp only at h
    split at h
    · next hall =>
      rcases hsm : scheduleTaskModel (writeEdges s t) t now with _ | ⟨sX, tX, evX⟩
      · rw [hsm] at h
        simp only [Except.ok.injEq, Prod.mk.injEq] at h
        obtain ⟨h1, h2, h3⟩ := h
        subst h1 h2
        unfold scheduleTaskModel at hsm
        split at hsm
        · next hdl =>
          exact ⟨rfl, rfl, rfl, Or.inl ⟨rfl, rfl, Or.inr hdl⟩⟩
        · simp at hsm
      · rw [hsm] at h
        simp only [Except.ok.injEq, Prod.mk.injEq] at h
        obtain ⟨h1, h2, h3⟩ := h
        subst h1 h2
        unfold scheduleTaskModel at hsm
        split at hsm
        · cases hsm
        · next hdl =>
          simp only [Option.some.injEq, Prod.mk.injEq] at hsm
          obtain ⟨hs1, hs2, hs3⟩ := hsm
          subst hs1 hs2
          exact ⟨rfl, rfl, rfl, Or.inr ⟨rfl, hdl, rfl⟩⟩
    · next hall =>
      simp only [Except.ok.injEq, Prod.mk.injEq] at h
      obtain ⟨h1, h2, h3⟩ := h
      subst h1 h2
      exact ⟨rfl, rfl, rfl, Or.inl ⟨rfl, rfl, Or.inl (by simpa using hall)⟩⟩

/-- What a successful `createTaskFinish` leaves behind: the finished
task is stored with the same definition, the group rows are untouched,
the reply status is the stored task's, and a task left unscheduled
means the tracker found its dependencies existing but unsatisfied. -/
theorem createTaskFinish_post (sIn : QState) (tIn : Task) (now : Time)
    (evs : List Event) (st : Status) (ev1 : List Event) (s1 : QState)
    (hself : lookupTask sIn tIn.taskId = some tIn)
    (hdl : ¬ tIn.deadline < now)
    (h : createTaskFinish sIn tIn now evs = (.ok st, ev1, s1)) :
    ∃ t1, lookupTask s1 tIn.taskId = some t1 ∧ st = t1.status ∧
      t1.definition = tIn.definition ∧
      s1.groups = sIn.groups ∧ s1.members = sIn.members ∧
      s1.activeSet = sIn.activeSet ∧
      (t1.runs = [] →
        t1 = tIn ∧ s1.tasks = sIn.tasks ∧
        (tIn.dependencies.any (fun dep => (lookupTask sIn dep).isNone)) = false ∧
        (tIn.dependencies.all (fun dep =>
          depSatisfied (writeEdges sIn tIn) tIn.requires dep)) = false) := by
  unfold createTaskFinish at h
  split at h
  · next hst =>
    have hruns : tIn.runs = [] := (state_unscheduled_iff tIn).mp hst
    rcases htr : trackDependencies sIn tIn now with m | ⟨s', t', evT⟩
    · rw [htr] at h
      simp at h
    · rw [htr] at h
      dsimp only at h
      obtain ⟨hmiss, hgr, hmem, hact, hcases⟩ :=
        trackDependencies_cases sIn tIn now s' t' evT htr
      have hps := createTaskPublish_state s' t' (evs ++ evT)
      have hp1 := (createTaskPublish_parts s' t' (evs ++ evT)).1
      have ho : Outcome.ok st = (createTaskPublish s' t' (evs ++ evT)).1 := by
        rw [h]
      have hstatus : st = t'.status := by
        have h3 := ho.trans hp1
        injection h3 with h3
      have hs1 : s1 = s' := by
        have h4 : s1 = (createTaskPublish s' t' (evs ++ evT)).2.2 := by
          rw [h]
        exact h4.trans hps
      subst hs1
      rcases hcases with ⟨ht', htasks, hor⟩ | ⟨ht', hdl', hupd⟩
      · subst ht'
        refine ⟨t', by rwa [lookupTask_congr htasks], hstatus, rfl,
          hgr, hmem, hact, ?_⟩
        intro _
        rcases hor with hfalse | hdlc
        · exact ⟨rfl, htasks, hmiss, hfalse⟩
        · exact absurd hdlc hdl
      · refine ⟨t', ?_, hstatus, by rw [ht', scheduleMutator_definition],
          hgr, hmem, hact, ?_⟩
        · rw [hupd, lookupTask_updateTask]
          rw [ht']
          rw [if_pos (scheduleMutator_fields now tIn).1]
          rw [lookupTask_congr (show (writeEdges sIn tIn).tasks = sIn.tasks from rfl),
            hself]
          rfl
        · intro hruns'
          exfalso
          rw [ht'] at hruns'
          unfold scheduleMutator at hruns'
          rw [if_pos (by rw [hruns]; rfl)] at hruns'
          simp at hruns'
  · next hst =>
    have hps := createTaskPublish_state sIn tIn evs
    have hp1 := (createTaskPublish_parts sIn tIn evs).1
    have ho : Outcome.ok st = (createTaskPublish sIn tIn evs).1 := by
      rw [h]
    have hstatus : st = tIn.status := by
      have h3 := ho.trans hp1
      injection h3 with h3
    have hs1 : s1 = sIn := by
      have h4 : s1 = (createTaskPublish sIn tIn evs).2.2 := by
        rw [h]
      exact h4.trans hps
    subst hs1
    refine ⟨tIn, hself, hstatus, rfl, rfl, rfl, rfl, ?_⟩
    intro hruns
    exact absurd ((state_unscheduled_iff tIn).mpr hruns) hst

/-- A repeated `createTaskFinish` on a task whose dependencies are
known to exist but be unsatisfied (when it is still unscheduled)
replies with the stored task's status and a non-empty event list. -/
theorem createTaskFinish_second (x : QState) (t1 : Task) (now : Time)
    (evs : List Event) (hne : evs ≠ [])
    (hcase : t1.runs = [] →
      (t1.dependencies.any (fun dep => (lookupTask x dep).isNone)) = false ∧
      (t1.dependencies.all (fun dep =>
        depSatisfied (writeEdges x t1) t1.requires dep)) = false) :
    (createTaskFinish x t1 now evs).1 = .ok t1.status ∧
    (createTaskFinish x t1 now evs).2.1 ≠ [] := by
  unfold createTaskFinish
  by_cases hst : t1.state = "unscheduled"
  · rw [if_pos hst]
    obtain ⟨hmiss, hall⟩ := hcase ((state_unscheduled_iff t1).mp hst)
    have htr : trackDependencies x t1 now = .ok (writeEdges x t1, t1, []) := by
      unfold trackDependencies
      rw [hmiss]
      rw [if_neg (by simp)]
      dsimp only
      rw [hall]
      rw [if_neg (by simp)]
    simp only [htr]
    obtain ⟨hp1, hp2⟩ := createTaskPublish_parts (writeEdges x t1) t1 (evs ++ [])
    exact ⟨hp1, hp2 (by simp [hne])⟩
  · rw [if_neg hst]
    obtain ⟨hp1, hp2⟩ := createTaskPublish_parts x t1 evs
    exact ⟨hp1, hp2 hne⟩

/-- Evaluation of a repeated `createTask` against the rows left by a
successful one: with the identical submitted definition it replies with
the stored status and re-emits events; with a validated definition
whose patched form differs it reports RequestConflict. -/
theorem createTask_second (ext : Int) (taskId : String) (d d' : TaskDef)
    (now : Time) (s1 : QState) (t1 : Task) (st : Status) (g : TaskGroupRow)
    (row : MemberRow)
    (hp : patchAndValidateTaskDef taskId d now = .ok d')
    (hsc : d'.scopes.any (fun sc => endsWithStarStar sc) = false)
    (hg : lookupGroup s1 d'.taskGroupId = some g)
    (hgs : g.schedulerId = d'.schedulerId)
    (hrw : findMember s1.activeSet d'.taskGroupId taskId = some row)
    (hre : row.expires = d'.expires.getD 0)
    (hlook : lookupTask s1 taskId = some t1)
    (hdef : t1.definition = d')
    (hst : st = t1.status)
    (hclause : t1.runs = [] →
      (t1.dependencies.any (fun dep => (lookupTask s1 dep).isNone)) = false ∧
      (t1.dependencies.all (fun dep =>
        depSatisfied (writeEdges s1 t1) t1.requires dep)) = false) :
    ((createTask ext taskId d now s1).1 = .ok st ∧
     (createTask ext taskId d now s1).2.1 ≠ []) ∧
    (∀ d2 dd, patchAndValidateTaskDef taskId d2 now = .ok dd →
      dd.scopes.any (fun sc => endsWithStarStar sc) = false →
      dd ≠ d' →
      (createTask ext taskId d2 now s1).1 = .err .requestConflict) := by
  constructor
  · have hens1 : (ensureTaskGroup ext taskId d' s1).1 = true :=
      ensureTaskGroup_second ext taskId d' s1 g row hg hgs hrw hre
    rcases hens2 : ensureTaskGroup ext taskId d' s1 with ⟨b2, sE2⟩
    have hb2 : b2 = true := by
      rw [hens2] at hens1
      exact hens1
    subst hb2
    have hE2tasks : sE2.tasks = s1.tasks := by
      have h5 := (ensureTaskGroup_effects ext taskId d' s1).1
      rw [hens2] at h5
      exact h5
    have hlook2 : lookupTask sE2 taskId = some t1 := by
      rw [lookupTask_congr hE2tasks]
      exact hlook
    unfold createTask
    simp only [hp]
    rw [if_neg (by simp [hsc])]
    simp only [hens2]
    simp only [hlook2]
    rw [if_neg (by simp [hdef])]
    have hfin := createTaskFinish_second sE2 t1 now
      [Event.deadlineMsg taskId d'.deadline] (by simp) ?_
    · rw [hst]
      exact hfin
    · intro hruns
      obtain ⟨hmiss, hall⟩ := hclause hruns
      constructor
      · rw [show (fun dep => (lookupTask sE2 dep).isNone) =
            (fun dep => (lookupTask s1 dep).isNone) from
          funext fun dep => by rw [lookupTask_congr hE2tasks]]
        exact hmiss
      · have hds : ∀ dep, depSatisfied (writeEdges sE2 t1) t1.requires dep =
            depSatisfied (writeEdges s1 t1) t1.requires dep := by
          intro dep
          exact depSatisfied_congr hE2tasks _ _
        simp only [hds]
        exact hall
  · intro d2 dd hp2 hsc2 hne2
    unfold createTask
    simp only [hp2]
    rw [if_neg (by simp [hsc2])]
    rcases hens3 : ensureTaskGroup ext taskId dd s1 with ⟨b3, sE3⟩
    cases b3
    · rfl
    · have hE3tasks : sE3.tasks = s1.tasks := by
        have h5 := (ensureTaskGroup_effects ext taskId dd s1).1
        rw [hens3] at h5
        exact h5
      have hlook3 : lookupTask sE3 taskId = some t1 := by
        rw [lookupTask_congr hE3tasks]
        exact hlook
      simp only [hlook3]
      rw [if_pos (show t1.definition ≠ dd by
        rw [hdef]
        exact fun hc => hne2 hc.symm)]

/-- Glue between `createTaskFinish_post` (what the first call left) and
`createTask_second` (what the repeat does). -/
theorem createTask_repeat_core (ext : Int) (taskId : String) (d d' : TaskDef)
    (now : Time) (sE s1 sIn : QState) (tIn t1 : Task) (st : Status)
    (g1 : TaskGroupRow) (rowA : MemberRow)
    (hp : patchAndValidateTaskDef taskId d now = .ok d')
    (hsc : d'.scopes.any (fun sc => endsWithStarStar sc) = false)
    (hg1 : lookupGroup sE d'.taskGroupId = some g1)
    (hg1s : g1.schedulerId = d'.schedulerId)
    (hrowA : findMember sE.activeSet d'.taskGroupId taskId = some rowA)
    (hrowAe : rowA.expires = d'.expires.getD 0)
    (hdefIn : tIn.definition = d')
    (htid : tIn.taskId = taskId)
    (hl1 : lookupTask s1 tIn.taskId = some t1)
    (hst1 : st = t1.status)
    (hdef1 : t1.definition = tIn.definition)
    (hgr1 : s1.groups = sE.groups)
    (hact1 : s1.activeSet = sE.activeSet)
    (hclause1 : t1.runs = [] →
      t1 = tIn ∧ s1.tasks = sIn.tasks ∧
      (tIn.dependencies.any (fun dep => (lookupTask sIn dep).isNone)) = false ∧
      (tIn.dependencies.all (fun dep =>
        depSatisfied (writeEdges sIn tIn) tIn.requires dep)) = false) :
    ((createTask ext taskId d now s1).1 = .ok st ∧
     (createTask ext taskId d now s1).2.1 ≠ []) ∧
    (∀ d2 dd, patchAndValidateTaskDef taskId d2 now = .ok dd →
      dd.scopes.any (fun sc => endsWithStarStar sc) = false →
      dd ≠ d' →
      (createTask ext taskId d2 now s1).1 = .err .requestConflict) := by
  have hlook1 : lookupTask s1 taskId = some t1 := by
    rw [← htid]
    exact hl1
  have hdeft1 : t1.definition = d' := hdef1.trans hdefIn
  have hg1' : lookupGroup s1 d'.taskGroupId = some g1 := by
    rw [lookupGroup_congr hgr1]
    exact hg1
  have hrow' : findMember s1.activeSet d'.taskGroupId taskId = some rowA := by
    rw [hact1]
    exact hrowA
  refine createTask_second ext taskId d d' now s1 t1 st g1 rowA hp hsc hg1'
    hg1s hrow' hrowAe hlook1 hdeft1 hst1 ?_
  intro hruns
  obtain ⟨ht1eq, htasks, hmiss, hall⟩ := hclause1 hruns
  subst ht1eq
  constructor
  · rw [show (fun dep => (lookupTask s1 dep).isNone) =
        (fun dep => (lookupTask sIn dep).isNone) from
      funext fun dep => by rw [lookupTask_congr htasks]]
    exact hmiss
  · have hds : ∀ dep, depSatisfied (writeEdges s1 t1) t1.requires dep =
        depSatisfied (writeEdges sIn t1) t1.requires dep :=
      fun dep => depSatisfied_congr
        (show (writeEdges s1 t1).tasks = (writeEdges sIn t1).tasks from htasks)
        _ _
    simp only [hds]
    exact hall

/-- C2 (amended): after a successful `createTask(taskId, d)` (from a
store whose task rows are keyed by their own taskId), an immediately
repeated identical `createTask(taskId, d)` again replies with the very
same status, but it is not silent: it re-puts the deadline message and
re-publishes events (task-defined, and the pending message and
task-pending when run 0 is still pending), so the event list of the
repeat is non-empty; and `createTask(taskId, d2)` for any validated
`d2` whose patched definition differs from `d`'s returns
RequestConflict. -/
theorem createTask_idempotent (ext : Int) (taskId : String) (d d' : TaskDef)
    (now : Time) (s : QState) (st : Status) (ev1 : List Event) (s1 : QState)
    (hkc : ∀ id t0, lookupTask s id = some t0 → t0.taskId = id)
    (hp : patchAndValidateTaskDef taskId d now = .ok d')
    (h1 : createTask ext taskId d now s = (.ok st, ev1, s1)) :
    ((createTask ext taskId d now s1).1 = .ok st ∧
     (createTask ext taskId d now s1).2.1 ≠ []) ∧
    (∀ d2 dd, patchAndValidateTaskDef taskId d2 now = .ok dd →
      dd.scopes.any (fun sc => endsWithStarStar sc) = false →
      dd ≠ d' →
      (createTask ext taskId d2 now s1).1 = .err .requestConflict) := by
  obtain ⟨⟨e, he⟩, hdl⟩ := patchAndValidate_facts taskId d d' now hp
  unfold createTask at h1
  rw [hp] at h1
  dsimp only at h1
  cases hsc : d'.scopes.any (fun sc => endsWithStarStar sc)
  case true =>
    rw [if_pos hsc] at h1
    simp at h1
  case false =>
  rw [if_neg (by simp [hsc])] at h1
  rcases hens : ensureTaskGroup ext taskId d' s with ⟨b, sE⟩
  rw [hens] at h1
  cases b
  case false =>
    simp at h1
  case true =>
  dsimp only at h1
  have hEtasks : sE.tasks = s.tasks := by
    have h5 := (ensureTaskGroup_effects ext taskId d' s).1
    rw [hens] at h5
    exact h5
  have hEg : ∃ g1, lookupGroup sE d'.taskGroupId = some g1 ∧
      g1.schedulerId = d'.schedulerId := by
    have h5 := (ensureTaskGroup_effects ext taskId d' s).2.2.2
    rw [hens] at h5
    exact h5 rfl
  obtain ⟨g1, hg1, hg1s⟩ := hEg
  obtain ⟨rowA, hrowA, hrowAe⟩ := ensureTaskGroup_activeSet ext taskId d' s sE hens
  rcases hlt : lookupTask sE taskId with _ | t0
  · -- task did not exist yet: fresh creation
    rw [hlt] at h1
    dsimp only at h1
    have hselfF : lookupTask
        (insertTask sE (freshTask taskId d'
          (if d'.dependencies.length = 0 then [pendingRun .scheduled now] else [])))
        (freshTask taskId d'
          (if d'.dependencies.length = 0 then [pendingRun .scheduled now] else [])).taskId =
        some (freshTask taskId d'
          (if d'.dependencies.length = 0 then [pendingRun .scheduled now] else [])) := by
      rw [lookupTask_insertTask]
      simp
    have hdlF : ¬ (freshTask taskId d'
        (if d'.dependencies.length = 0 then [pendingRun .scheduled now] else [])).deadline <
        now := hdl
    obtain ⟨t1, hl1, hst1, hdef1, hgr1, hmem1, hact1, hclause1⟩ :=
      createTaskFinish_post _ _ now _ st ev1 s1 hselfF hdlF h1
    exact createTask_repeat_core ext taskId d d' now sE s1 _ _ t1 st g1 rowA
      hp hsc hg1 hg1s hrowA hrowAe
      (freshTask_definition taskId d' _ e he) rfl
      hl1 hst1 hdef1 hgr1 hact1 hclause1
  · -- task already existed: the catch branch compares definitions
    rw [hlt] at h1
    dsimp only at h1
    by_cases hd0 : t0.definition = d'
    · rw [if_neg (by simp [hd0])] at h1
      have hlt' : lookupTask s taskId = some t0 :=
        (lookupTask_congr hEtasks taskId).symm.trans hlt
      have ht0id : t0.taskId = taskId := hkc taskId t0 hlt'
      have hself0 : lookupTask sE t0.taskId = some t0 := by
        rw [ht0id]
        exact hlt
      have hdl0 : ¬ t0.deadline < now := by
        have hdd : t0.deadline = d'.deadline := congrArg TaskDef.deadline hd0
        rw [hdd]
        exact hdl
      obtain ⟨t1, hl1, hst1, hdef1, hgr1, hmem1, hact1, hclause1⟩ :=
        createTaskFinish_post sE t0 now _ st ev1 s1 hself0 hdl0 h1
      exact createTask_repeat_core ext taskId d d' now sE s1 sE t0 t1 st g1 rowA
        hp hsc hg1 hg1s hrowA hrowAe hd0 ht0id
        hl1 hst1 hdef1 hgr1 hact1 hclause1
    · rw [if_pos hd0] at h1
      simp at h1

/-- The patched form of `d7a` for taskId `tid`. -/
def dWpat : TaskDef :=
  { d7a with taskGroupId := "tid", expires := some (cexNow + oneYearMs) }

/-- `d7a` with a different payload: a conflicting redefinition. -/
def dW2 : TaskDef := { d7a with payload := "x" }

/-- The store after a first successful `createTask` of `d7a` into the
empty store. -/
def sW1 : QState := (createTask 10 "tid" d7a cexNow {}).2.2

/-- The status replied by that first call. -/
def stW : Status :=
  (freshTask "tid" dWpat [pendingRun .scheduled cexNow]).status

/-- Counterexample to C2 as stated: repeating the identical
`createTask` does reply with the same status, but it is not silent —
it re-puts the deadline message and re-publishes task-defined, the
pending message and task-pending, so the second call does produce
additional events. -/
theorem createTask_idempotent_cex :
    (createTask 10 "tid" d7a cexNow {}).1 = .ok stW ∧
    (createTask 10 "tid" d7a cexNow sW1).1 = .ok stW ∧
    (createTask 10 "tid" d7a cexNow sW1).2.1 =
      [Event.deadlineMsg "tid" cexNow, Event.taskDefined "tid",
       Event.pendingMsg "tid" 0, Event.taskPending "tid" 0] := by
  refine ⟨rfl, rfl, rfl⟩

/-- Witness for C2 (amended) at concrete inputs: the repeat of the
first call replies with the same status and a non-empty event list,
and redefining the task with a changed payload reports
RequestConflict. -/
theorem createTask_idempotent_witness :
    ((createTask 10 "tid" d7a cexNow sW1).1 = .ok stW ∧
     (createTask 10 "tid" d7a cexNow sW1).2.1 ≠ []) ∧
    (createTask 10 "tid" dW2 cexNow sW1).1 = .err .requestConflict := by
  have h := createTask_idempotent 10 "tid" d7a dWpat cexNow {} stW
    [Event.deadlineMsg "tid" cexNow, Event.taskDefined "tid",
     Event.pendingMsg "tid" 0, Event.taskPending "tid" 0]
    sW1
    (by
      intro id t0 hl
      simp [lookupTask] at hl)
    rfl
    rfl
  refine ⟨h.1, ?_⟩
  exact h.2 dW2 { dW2 with taskGroupId := "tid", expires := some (cexNow + oneYearMs) }
    rfl rfl (by decide)

end TcQueue
